import Mathlib

/-!
Verification of the lazy handle cache (`JniConstants.cpp`) and the
file-descriptor helper functions (`JNIHelpCompat.c` / `JNIHelp.c` /
`JNIHelp.cpp`) of platform-libnativehelper.

Handles (`jclass`, `jfieldID`, `jmethodID`, `jobject`) are modelled as `Nat`
with `0` playing the role of the C `nullptr`.  The host runtime (the `JNIEnv`
virtual-machine interface) is modelled as a record of pure resolution
functions; calls into the runtime are additionally recorded in an event trace
so that properties such as "no lookup is performed" or "the guard is not held
during the lookup" can be stated about a run.  A fatal process abort
(`ALOG_ALWAYS_FATAL_IF`) is modelled as `Except.error` carrying the
diagnostic message.
-/

/-- Events emitted by a run: each constructor records one call into the host
runtime, or the acquisition/release of the class-reference mutex
(`g_class_refs_mutex`). -/
inductive Ev where
  | findClassCall (name : String)
  | newGlobalRefCall (ref : Nat)
  | deleteLocalRefCall (ref : Nat)
  | getFieldIDCall (klass : Nat) (name : String) (desc : String)
  | getMethodIDCall (klass : Nat) (name : String) (sig : String)
  | getIntFieldCall (obj : Nat) (fid : Nat)
  | setIntFieldCall (obj : Nat) (fid : Nat) (value : Int)
  | throwNewCall (klassName : String) (msg : String)
  | lockAcq
  | lockRel
deriving DecidableEq, Repr

/-- Model of the host runtime interface (`JNIEnv`): pure resolution functions.
`findClassLocal name` is the local reference returned by `env->FindClass`
(0 = null), `newGlobalRef` is `env->NewGlobalRef` (0 = null, which JNI permits
on out-of-memory), `getFieldID`/`getMethodID` return 0 when the member is
missing, `getIntField` reads an int field of an object.  `throwNewOk` tells
whether `env->ThrowNew` succeeds and `oomClass` is the exception class left
pending when it fails. -/
structure JNIEnvModel where
  findClassLocal : String → Nat
  newGlobalRef : Nat → Nat
  getFieldID : Nat → String → String → Nat
  getMethodID : Nat → String → String → Nat
  getIntField : Nat → Nat → Int
  throwNewOk : String → String → Bool
  oomClass : String

/-- The mutable globals of `JniConstants.cpp` (file scope, anonymous
namespace): three cached global class references, two field ids, two method
ids, and the atomic flag `g_class_refs_initialized`.  0 = `nullptr`. -/
structure JniState where
  g_file_descriptor_class : Nat
  g_reference_class : Nat
  g_string_class : Nat
  g_file_descriptor_descriptor_field : Nat
  g_file_descriptor_owner_id_field : Nat
  g_file_descriptor_init_method : Nat
  g_reference_get_method : Nat
  g_class_refs_initialized : Bool
deriving DecidableEq, Repr

/-- The all-null state the globals have at process start (every cached slot
`nullptr`, flag `false`). -/
def jniInit : JniState :=
  { g_file_descriptor_class := 0
    g_reference_class := 0
    g_string_class := 0
    g_file_descriptor_descriptor_field := 0
    g_file_descriptor_owner_id_field := 0
    g_file_descriptor_init_method := 0
    g_reference_get_method := 0
    g_class_refs_initialized := false }

/-- `JniConstants.cpp` helper `FindClass` (lines 75-79): looks the class up,
aborts fatally ("failed to find class ...", naming the class) when the
runtime returns null, otherwise promotes the local reference to a global
reference (`NewGlobalRef`, whose result is not checked by the source) and
releases the local reference when `ScopedLocalRef` leaves scope. -/
def FindClass (env : JNIEnvModel) (name : String) : Except String (Nat × List Ev) :=
  let klass := env.findClassLocal name
  if klass = 0 then
    Except.error ("failed to find class " ++ name)
  else
    Except.ok (env.newGlobalRef klass,
      [Ev.findClassCall name, Ev.newGlobalRefCall klass, Ev.deleteLocalRefCall klass])

/-- `JniConstants.cpp` helper `FindField` (lines 81-85): `GetFieldID`, fatal
abort naming the field when the runtime returns null. -/
def FindField (env : JNIEnvModel) (klass : Nat) (name : String) (desc : String) :
    Except String (Nat × List Ev) :=
  let result := env.getFieldID klass name desc
  if result = 0 then
    Except.error ("failed to find field " ++ name ++ ":" ++ desc)
  else
    Except.ok (result, [Ev.getFieldIDCall klass name desc])

/-- `JniConstants.cpp` helper `FindMethod` (lines 87-91): `GetMethodID`, fatal
abort naming the method when the runtime returns null. -/
def FindMethod (env : JNIEnvModel) (klass : Nat) (name : String) (sig : String) :
    Except String (Nat × List Ev) :=
  let result := env.getMethodID klass name sig
  if result = 0 then
    Except.error ("failed to find method " ++ name ++ sig)
  else
    Except.ok (result, [Ev.getMethodIDCall klass name sig])

/-- `JniConstants::EnsureClassReferencesInitialized` (lines 142-162),
sequential semantics: fast check of the flag (returns at once, no lock
events); otherwise take `g_class_refs_mutex`, re-check the flag (in a
sequential run the flag cannot have changed, but the check is kept),
resolve the three classes as global references, set the flag, release the
mutex.  The fine-grained interleaved semantics of the same function is
`stepOf` below. -/
def EnsureClassReferencesInitialized (env : JNIEnvModel) (s : JniState) :
    Except String (JniState × List Ev) :=
  if s.g_class_refs_initialized then
    Except.ok (s, [])
  else if s.g_class_refs_initialized then
    Except.ok (s, [Ev.lockAcq, Ev.lockRel])
  else
    match FindClass env "java/io/FileDescriptor" with
    | Except.error e => Except.error e
    | Except.ok (fd, t1) =>
      match FindClass env "java/lang/ref/Reference" with
      | Except.error e => Except.error e
      | Except.ok (ref, t2) =>
        match FindClass env "java/lang/String" with
        | Except.error e => Except.error e
        | Except.ok (str, t3) =>
          Except.ok ({ s with
              g_file_descriptor_class := fd
              g_reference_class := ref
              g_string_class := str
              g_class_refs_initialized := true },
            Ev.lockAcq :: (t1 ++ t2 ++ t3 ++ [Ev.lockRel]))

/-- `JniConstants::GetFileDescriptorClass` (lines 100-103). -/
def GetFileDescriptorClass (env : JNIEnvModel) (s : JniState) :
    Except String (Nat × JniState × List Ev) :=
  match EnsureClassReferencesInitialized env s with
  | Except.error e => Except.error e
  | Except.ok (s1, t) => Except.ok (s1.g_file_descriptor_class, s1, t)

/-- `JniConstants::GetReferenceClass` (lines 95-98). -/
def GetReferenceClass (env : JNIEnvModel) (s : JniState) :
    Except String (Nat × JniState × List Ev) :=
  match EnsureClassReferencesInitialized env s with
  | Except.error e => Except.error e
  | Except.ok (s1, t) => Except.ok (s1.g_reference_class, s1, t)

/-- `JniConstants::GetStringClass` (lines 105-108). -/
def GetStringClass (env : JNIEnvModel) (s : JniState) :
    Except String (Nat × JniState × List Ev) :=
  match EnsureClassReferencesInitialized env s with
  | Except.error e => Except.error e
  | Except.ok (s1, t) => Except.ok (s1.g_string_class, s1, t)

/-- `JniConstants::GetFileDescriptorDescriptorField` (lines 110-116): if the
slot is still the unresolved sentinel (null), obtain the class through the
class accessor and look the field up (no mutex is taken by this tier),
store it racily, return the slot. -/
def GetFileDescriptorDescriptorField (env : JNIEnvModel) (s : JniState) :
    Except String (Nat × JniState × List Ev) :=
  if s.g_file_descriptor_descriptor_field = 0 then
    match GetFileDescriptorClass env s with
    | Except.error e => Except.error e
    | Except.ok (klass, s1, t1) =>
      match FindField env klass "descriptor" "I" with
      | Except.error e => Except.error e
      | Except.ok (fid, t2) =>
        Except.ok (fid, { s1 with g_file_descriptor_descriptor_field := fid }, t1 ++ t2)
  else
    Except.ok (s.g_file_descriptor_descriptor_field, s, [])

/-- `JniConstants::GetFileDescriptorOwnerIdField` (lines 118-124). -/
def GetFileDescriptorOwnerIdField (env : JNIEnvModel) (s : JniState) :
    Except String (Nat × JniState × List Ev) :=
  if s.g_file_descriptor_owner_id_field = 0 then
    match GetFileDescriptorClass env s with
    | Except.error e => Except.error e
    | Except.ok (klass, s1, t1) =>
      match FindField env klass "ownerId" "J" with
      | Except.error e => Except.error e
      | Except.ok (fid, t2) =>
        Except.ok (fid, { s1 with g_file_descriptor_owner_id_field := fid }, t1 ++ t2)
  else
    Except.ok (s.g_file_descriptor_owner_id_field, s, [])

/-- `JniConstants::GetFileDescriptorInitMethod` (lines 126-132). -/
def GetFileDescriptorInitMethod (env : JNIEnvModel) (s : JniState) :
    Except String (Nat × JniState × List Ev) :=
  if s.g_file_descriptor_init_method = 0 then
    match GetFileDescriptorClass env s with
    | Except.error e => Except.error e
    | Except.ok (klass, s1, t1) =>
      match FindMethod env klass "<init>" "()V" with
      | Except.error e => Except.error e
      | Except.ok (mid, t2) =>
        Except.ok (mid, { s1 with g_file_descriptor_init_method := mid }, t1 ++ t2)
  else
    Except.ok (s.g_file_descriptor_init_method, s, [])

/-- `JniConstants::GetReferenceGetMethod` (lines 134-140). -/
def GetReferenceGetMethod (env : JNIEnvModel) (s : JniState) :
    Except String (Nat × JniState × List Ev) :=
  if s.g_reference_get_method = 0 then
    match GetReferenceClass env s with
    | Except.error e => Except.error e
    | Except.ok (klass, s1, t1) =>
      match FindMethod env klass "get" "()Ljava/lang/Object;" with
      | Except.error e => Except.error e
      | Except.ok (mid, t2) =>
        Except.ok (mid, { s1 with g_reference_get_method := mid }, t1 ++ t2)
  else
    Except.ok (s.g_reference_get_method, s, [])

/-- `JniConstants::Uninitialize` (lines 164-182), sequential semantics: take
`g_class_refs_mutex`, set every cached slot back to `nullptr` and the flag
to `false`, release the mutex.  (The name `Uninitialize` is shortened to
`Uninit` here.) -/
def Uninit (s : JniState) : JniState × List Ev :=
  ({ s with
      g_file_descriptor_class := 0
      g_file_descriptor_descriptor_field := 0
      g_file_descriptor_owner_id_field := 0
      g_file_descriptor_init_method := 0
      g_reference_class := 0
      g_reference_get_method := 0
      g_string_class := 0
      g_class_refs_initialized := false },
   [Ev.lockAcq, Ev.lockRel])

/-!
Fine-grained interleaved semantics of `EnsureClassReferencesInitialized`
(`JniConstants.cpp` lines 142-162) and `Uninitialize` (lines 164-182).

Each thread executing `EnsureClassReferencesInitialized` is a program
counter; each atomic action of the source (one atomic load/store of
`g_class_refs_initialized`, one mutex acquisition/release, one assignment of
one class-reference global) is one transition.  `Uninitialize` runs entirely
inside one critical section of the same mutex and, in the C++ memory model,
unsynchronized concurrent access to the plain globals it clears would be a
data race, so it is modelled as a single guarded action that is enabled only
while the mutex is free.

Ghost counters `fdFinds`, `refFinds`, `strFinds` count how many times the
`FindClass`/`NewGlobalRef` batch line for each of the three classes has been
executed; they instrument the model and are written by no other action.
-/

/-- Program counter of a thread running `EnsureClassReferencesInitialized`:
`fastCheck` = the acquire-load at line 144, `lockWait` = the `lock_guard`
acquisition at line 149, `recheck` = the relaxed re-load at line 150,
`resolveFD`/`resolveRef`/`resolveStr` = the three `FindClass` assignments at
lines 158-160, `setFlag` = the release-store at line 161, `unlock` = the
`lock_guard` release at function exit, `done` = returned. -/
inductive PC where
  | fastCheck
  | lockWait
  | recheck
  | resolveFD
  | resolveRef
  | resolveStr
  | setFlag
  | unlock
  | done
deriving DecidableEq, Repr

/-- The program counters at which a thread is inside the critical section of
`g_class_refs_mutex` (it has acquired, not yet released). -/
def PC.inCrit : PC → Bool
  | PC.recheck => true
  | PC.resolveFD => true
  | PC.resolveRef => true
  | PC.resolveStr => true
  | PC.setFlag => true
  | PC.unlock => true
  | _ => false

/-- Global state of the interleaved system: the `JniConstants.cpp` globals,
the mutex owner (`none` = free), one program counter per thread (thread `t`
is entry `t` of `pcs`), and the three ghost resolution counters. -/
structure CState where
  mem : JniState
  lockHolder : Option Nat
  pcs : List PC
  fdFinds : Nat
  refFinds : Nat
  strFinds : Nat
deriving DecidableEq, Repr

/-- The durable (global) reference the helper `FindClass` produces for a
class name: `NewGlobalRef` applied to the local reference from the runtime
lookup.  Deterministic in this model, so every resolution of the same name
yields the same handle. -/
def globalRefOf (env : JNIEnvModel) (name : String) : Nat :=
  env.newGlobalRef (env.findClassLocal name)

/-- Replace thread `t`'s program counter. -/
def setPc (σ : CState) (t : Nat) (pc : PC) : CState :=
  { σ with pcs := σ.pcs.set t pc }

/-- One atomic step of thread `t` in `EnsureClassReferencesInitialized`.
`none` means the thread cannot step: it does not exist, is blocked on the
mutex, has returned, or the process aborted fatally inside `FindClass`. -/
def stepOf (env : JNIEnvModel) (σ : CState) (t : Nat) : Option CState :=
  match σ.pcs[t]? with
  | none => none
  | some PC.fastCheck =>
      if σ.mem.g_class_refs_initialized then some (setPc σ t PC.done)
      else some (setPc σ t PC.lockWait)
  | some PC.lockWait =>
      match σ.lockHolder with
      | none => some { setPc σ t PC.recheck with lockHolder := some t }
      | some _ => none
  | some PC.recheck =>
      if σ.mem.g_class_refs_initialized then some (setPc σ t PC.unlock)
      else some (setPc σ t PC.resolveFD)
  | some PC.resolveFD =>
      if env.findClassLocal "java/io/FileDescriptor" = 0 then none
      else some { setPc σ t PC.resolveRef with
                  mem := { σ.mem with
                    g_file_descriptor_class := globalRefOf env "java/io/FileDescriptor" }
                  fdFinds := σ.fdFinds + 1 }
  | some PC.resolveRef =>
      if env.findClassLocal "java/lang/ref/Reference" = 0 then none
      else some { setPc σ t PC.resolveStr with
                  mem := { σ.mem with
                    g_reference_class := globalRefOf env "java/lang/ref/Reference" }
                  refFinds := σ.refFinds + 1 }
  | some PC.resolveStr =>
      if env.findClassLocal "java/lang/String" = 0 then none
      else some { setPc σ t PC.setFlag with
                  mem := { σ.mem with
                    g_string_class := globalRefOf env "java/lang/String" }
                  strFinds := σ.strFinds + 1 }
  | some PC.setFlag =>
      some { setPc σ t PC.unlock with
             mem := { σ.mem with g_class_refs_initialized := true } }
  | some PC.unlock =>
      some { setPc σ t PC.done with lockHolder := none }
  | some PC.done => none

/-- Interleaving: some thread takes one step of
`EnsureClassReferencesInitialized`. -/
def EnsureStep (env : JNIEnvModel) (σ σ1 : CState) : Prop :=
  ∃ t, stepOf env σ t = some σ1

/-- `JniConstants::Uninitialize` as one guarded action: enabled only while
`g_class_refs_mutex` is free (it acquires and releases it around the body),
clears all seven cached slots and the flag, leaves program counters and
ghost counters alone. -/
def uninitAction (σ : CState) : Option CState :=
  match σ.lockHolder with
  | none => some { σ with mem := jniInit }
  | some _ => none

/-- A step of the full system: an `EnsureClassReferencesInitialized` step by
some thread, or one `Uninitialize` action. -/
def SysStep (env : JNIEnvModel) (σ σ1 : CState) : Prop :=
  EnsureStep env σ σ1 ∨ uninitAction σ = some σ1

/-- `n` threads about to make their first accessor call, globals at their
process-start values. -/
def initCState (n : Nat) : CState :=
  { mem := jniInit
    lockHolder := none
    pcs := List.replicate n PC.fastCheck
    fdFinds := 0
    refFinds := 0
    strFinds := 0 }

/-- States reachable by first-use accessor calls only (the scenario of the
concurrency claims: no reset in flight). -/
def ReachE (env : JNIEnvModel) (n : Nat) (σ : CState) : Prop :=
  Relation.ReflTransGen (EnsureStep env) (initCState n) σ

/-- States reachable when `Uninitialize` actions may also occur. -/
def ReachSys (env : JNIEnvModel) (n : Nat) (σ : CState) : Prop :=
  Relation.ReflTransGen (SysStep env) (initCState n) σ

/-- Run a concrete schedule (list of thread ids), failing if any scheduled
thread cannot step.  Used to exhibit concrete reachable states. -/
def runSteps (env : JNIEnvModel) : CState → List Nat → Option CState
  | σ, [] => some σ
  | σ, t :: ts =>
      match stepOf env σ t with
      | none => none
      | some σ1 => runSteps env σ1 ts

theorem reflTransGen_of_runSteps (env : JNIEnvModel) :
    ∀ (ts : List Nat) (σ σ1 : CState), runSteps env σ ts = some σ1 →
      Relation.ReflTransGen (EnsureStep env) σ σ1 := by
  intro ts
  induction ts with
  | nil =>
      intro σ σ1 h
      simp only [runSteps] at h
      cases h
      exact Relation.ReflTransGen.refl
  | cons t ts ih =>
      intro σ σ1 h
      simp only [runSteps] at h
      cases hstep : stepOf env σ t with
      | none => rw [hstep] at h; cases h
      | some σ2 =>
          rw [hstep] at h
          exact Relation.ReflTransGen.head ⟨t, hstep⟩ (ih σ2 σ1 h)

theorem reachE_of_runSteps (env : JNIEnvModel) (n : Nat) (ts : List Nat) (σ : CState)
    (h : runSteps env (initCState n) ts = some σ) : ReachE env n σ :=
  reflTransGen_of_runSteps env ts (initCState n) σ h

theorem reachSys_of_reachE (env : JNIEnvModel) (n : Nat) (σ : CState)
    (h : ReachE env n σ) : ReachSys env n σ :=
  Relation.ReflTransGen.mono (fun _ _ hs => Or.inl hs) h

/-!  Basic facts about program-counter updates. -/

theorem lt_length_of_getElem (σ : CState) (t : Nat) (pc : PC)
    (h : σ.pcs[t]? = some pc) : t < σ.pcs.length :=
  (List.getElem?_eq_some.mp h).1

theorem getElem_setPc {σ : CState} {t : Nat} {pc : PC} {u : Nat} {pcu : PC}
    (h : (setPc σ t pc).pcs[u]? = some pcu) :
    (u = t ∧ pcu = pc) ∨ (u ≠ t ∧ σ.pcs[u]? = some pcu) := by
  by_cases he : t = u
  · subst he
    have hlt : t < σ.pcs.length := by
      have hl := lt_length_of_getElem (setPc σ t pc) t pcu h
      simpa only [setPc, List.length_set] using hl
    rw [setPc] at h
    rw [List.getElem?_set, if_pos rfl, if_pos hlt] at h
    exact Or.inl ⟨rfl, (Option.some.inj h).symm⟩
  · refine Or.inr ⟨fun hh => he hh.symm, ?_⟩
    rw [setPc] at h
    simpa only [List.getElem?_set, if_neg he] using h

/-- The mutex-ownership invariant: a thread whose program counter is inside
the critical section is the thread recorded as owner of
`g_class_refs_mutex`. -/
def LockInv (σ : CState) : Prop :=
  ∀ t pc, σ.pcs[t]? = some pc → pc.inCrit = true → σ.lockHolder = some t

theorem lockInv_setPc_notCrit {σ : CState} {t : Nat} {pc : PC} (h : LockInv σ)
    (hpc : pc.inCrit = false) : LockInv (setPc σ t pc) := by
  intro u pcu hget hcrit
  rcases getElem_setPc hget with ⟨_, hpcu⟩ | ⟨_, hold⟩
  · subst hpcu; rw [hpc] at hcrit; cases hcrit
  · exact h u pcu hold hcrit

theorem lockInv_setPc_crit {σ : CState} {t : Nat} {pc : PC} (h : LockInv σ)
    (hold : σ.lockHolder = some t) : LockInv (setPc σ t pc) := by
  intro u pcu hget hcrit
  rcases getElem_setPc hget with ⟨he, _⟩ | ⟨_, holdu⟩
  · rw [he]; exact hold
  · exact h u pcu holdu hcrit

/-- At most one thread is inside the critical section. -/
theorem lockInv_unique {σ : CState} (h : LockInv σ) {t u : Nat} {pct pcu : PC}
    (ht : σ.pcs[t]? = some pct) (hct : pct.inCrit = true)
    (hu : σ.pcs[u]? = some pcu) (hcu : pcu.inCrit = true) : t = u := by
  have h1 := h t pct ht hct
  have h2 := h u pcu hu hcu
  rw [h1] at h2
  exact Option.some.inj h2

/-- All three cached class references are populated (non-null). -/
def ClassesNonNull (s : JniState) : Prop :=
  s.g_file_descriptor_class ≠ 0 ∧ s.g_reference_class ≠ 0 ∧ s.g_string_class ≠ 0

/-- Inductive invariant behind the flag/handles ordering guarantee: handles
already resolved by the in-progress batch are non-null, and once the flag is
observed `true` all three class handles are non-null. -/
def InvC1 (σ : CState) : Prop :=
  LockInv σ ∧
  (∀ t : Nat, σ.pcs[t]? = some PC.resolveRef → σ.mem.g_file_descriptor_class ≠ 0) ∧
  (∀ t : Nat, σ.pcs[t]? = some PC.resolveStr →
    σ.mem.g_file_descriptor_class ≠ 0 ∧ σ.mem.g_reference_class ≠ 0) ∧
  (∀ t : Nat, σ.pcs[t]? = some PC.setFlag → ClassesNonNull σ.mem) ∧
  (σ.mem.g_class_refs_initialized = true → ClassesNonNull σ.mem)

theorem invC1_step (env : JNIEnvModel)
    (hFD : globalRefOf env "java/io/FileDescriptor" ≠ 0)
    (hRef : globalRefOf env "java/lang/ref/Reference" ≠ 0)
    (hStr : globalRefOf env "java/lang/String" ≠ 0)
    {σ σ1 : CState} (hinv : InvC1 σ) (hstep : SysStep env σ σ1) : InvC1 σ1 := by
  obtain ⟨hlock, hRR, hRS, hSF, hFlag⟩ := hinv
  rcases hstep with ⟨t, hs⟩ | hu
  · cases hpct : σ.pcs[t]? with
    | none => simp [stepOf, hpct] at hs
    | some pc =>
      cases pc with
      | fastCheck =>
          simp only [stepOf, hpct] at hs
          split at hs
          all_goals
            have hσ1 := Option.some.inj hs
            subst hσ1
          · exact ⟨lockInv_setPc_notCrit hlock rfl,
              fun u hu => hRR u ((getElem_setPc hu).resolve_left (by rintro ⟨_, h⟩; cases h)).2,
              fun u hu => hRS u ((getElem_setPc hu).resolve_left (by rintro ⟨_, h⟩; cases h)).2,
              fun u hu => hSF u ((getElem_setPc hu).resolve_left (by rintro ⟨_, h⟩; cases h)).2,
              hFlag⟩
          · exact ⟨lockInv_setPc_notCrit hlock rfl,
              fun u hu => hRR u ((getElem_setPc hu).resolve_left (by rintro ⟨_, h⟩; cases h)).2,
              fun u hu => hRS u ((getElem_setPc hu).resolve_left (by rintro ⟨_, h⟩; cases h)).2,
              fun u hu => hSF u ((getElem_setPc hu).resolve_left (by rintro ⟨_, h⟩; cases h)).2,
              hFlag⟩
      | lockWait =>
          simp only [stepOf, hpct] at hs
          cases hL : σ.lockHolder with
          | some w => rw [hL] at hs; cases hs
          | none =>
              rw [hL] at hs
              have hσ1 := Option.some.inj hs
              subst hσ1
              refine ⟨?_, ?_, ?_, ?_, hFlag⟩
              · intro u pcu hget hcrit
                rcases getElem_setPc hget with ⟨he, _⟩ | ⟨_, holdu⟩
                · rw [he]
                · have := hlock u pcu holdu hcrit
                  rw [hL] at this
                  cases this
              · exact fun u hu => hRR u ((getElem_setPc hu).resolve_left (by rintro ⟨_, h⟩; cases h)).2
              · exact fun u hu => hRS u ((getElem_setPc hu).resolve_left (by rintro ⟨_, h⟩; cases h)).2
              · exact fun u hu => hSF u ((getElem_setPc hu).resolve_left (by rintro ⟨_, h⟩; cases h)).2
      | recheck =>
          simp only [stepOf, hpct] at hs
          have holdt : σ.lockHolder = some t := hlock t PC.recheck hpct rfl
          split at hs
          all_goals
            have hσ1 := Option.some.inj hs
            subst hσ1
          · exact ⟨lockInv_setPc_crit hlock holdt,
              fun u hu => hRR u ((getElem_setPc hu).resolve_left (by rintro ⟨_, h⟩; cases h)).2,
              fun u hu => hRS u ((getElem_setPc hu).resolve_left (by rintro ⟨_, h⟩; cases h)).2,
              fun u hu => hSF u ((getElem_setPc hu).resolve_left (by rintro ⟨_, h⟩; cases h)).2,
              hFlag⟩
          · exact ⟨lockInv_setPc_crit hlock holdt,
              fun u hu => hRR u ((getElem_setPc hu).resolve_left (by rintro ⟨_, h⟩; cases h)).2,
              fun u hu => hRS u ((getElem_setPc hu).resolve_left (by rintro ⟨_, h⟩; cases h)).2,
              fun u hu => hSF u ((getElem_setPc hu).resolve_left (by rintro ⟨_, h⟩; cases h)).2,
              hFlag⟩
      | resolveFD =>
          simp only [stepOf, hpct] at hs
          split at hs
          · cases hs
          · have hσ1 := Option.some.inj hs
            subst hσ1
            have holdt : σ.lockHolder = some t := hlock t PC.resolveFD hpct rfl
            refine ⟨lockInv_setPc_crit hlock holdt, fun u _ => hFD, ?_, ?_, ?_⟩
            · intro u hu
              rcases getElem_setPc hu with ⟨_, h⟩ | ⟨_, holdu⟩
              · cases h
              · exact ⟨hFD, (hRS u holdu).2⟩
            · intro u hu
              rcases getElem_setPc hu with ⟨_, h⟩ | ⟨_, holdu⟩
              · cases h
              · exact ⟨hFD, (hSF u holdu).2.1, (hSF u holdu).2.2⟩
            · intro hf
              exact ⟨hFD, (hFlag hf).2.1, (hFlag hf).2.2⟩
      | resolveRef =>
          simp only [stepOf, hpct] at hs
          split at hs
          · cases hs
          · have hσ1 := Option.some.inj hs
            subst hσ1
            have holdt : σ.lockHolder = some t := hlock t PC.resolveRef hpct rfl
            refine ⟨lockInv_setPc_crit hlock holdt, ?_, ?_, ?_, ?_⟩
            · intro u hu
              rcases getElem_setPc hu with ⟨_, h⟩ | ⟨_, holdu⟩
              · cases h
              · exact hRR u holdu
            · intro u hu
              rcases getElem_setPc hu with ⟨he, _⟩ | ⟨_, holdu⟩
              · exact ⟨hRR t hpct, hRef⟩
              · exact ⟨(hRS u holdu).1, hRef⟩
            · intro u hu
              rcases getElem_setPc hu with ⟨_, h⟩ | ⟨_, holdu⟩
              · cases h
              · exact ⟨(hSF u holdu).1, hRef, (hSF u holdu).2.2⟩
            · intro hf
              exact ⟨(hFlag hf).1, hRef, (hFlag hf).2.2⟩
      | resolveStr =>
          simp only [stepOf, hpct] at hs
          split at hs
          · cases hs
          · have hσ1 := Option.some.inj hs
            subst hσ1
            have holdt : σ.lockHolder = some t := hlock t PC.resolveStr hpct rfl
            refine ⟨lockInv_setPc_crit hlock holdt, ?_, ?_, ?_, ?_⟩
            · intro u hu
              rcases getElem_setPc hu with ⟨_, h⟩ | ⟨_, holdu⟩
              · cases h
              · exact hRR u holdu
            · intro u hu
              rcases getElem_setPc hu with ⟨_, h⟩ | ⟨_, holdu⟩
              · cases h
              · exact hRS u holdu
            · intro u hu
              rcases getElem_setPc hu with ⟨he, _⟩ | ⟨_, holdu⟩
              · exact ⟨(hRS t hpct).1, (hRS t hpct).2, hStr⟩
              · exact ⟨(hSF u holdu).1, (hSF u holdu).2.1, hStr⟩
            · intro hf
              exact ⟨(hFlag hf).1, (hFlag hf).2.1, hStr⟩
      | setFlag =>
          simp only [stepOf, hpct] at hs
          have hσ1 := Option.some.inj hs
          subst hσ1
          have holdt : σ.lockHolder = some t := hlock t PC.setFlag hpct rfl
          have hnn : ClassesNonNull σ.mem := hSF t hpct
          refine ⟨lockInv_setPc_crit hlock holdt, ?_, ?_, ?_, fun _ => hnn⟩
          · intro u hu
            rcases getElem_setPc hu with ⟨_, h⟩ | ⟨_, holdu⟩
            · cases h
            · exact hRR u holdu
          · intro u hu
            rcases getElem_setPc hu with ⟨_, h⟩ | ⟨_, holdu⟩
            · cases h
            · exact hRS u holdu
          · intro u hu
            rcases getElem_setPc hu with ⟨_, h⟩ | ⟨_, holdu⟩
            · cases h
            · exact hSF u holdu
      | unlock =>
          simp only [stepOf, hpct] at hs
          have hσ1 := Option.some.inj hs
          subst hσ1
          have holdt : σ.lockHolder = some t := hlock t PC.unlock hpct rfl
          refine ⟨?_, ?_, ?_, ?_, hFlag⟩
          · intro u pcu hget hcrit
            rcases getElem_setPc hget with ⟨_, hpcu⟩ | ⟨hne, holdu⟩
            · subst hpcu; cases hcrit
            · have := lockInv_unique hlock hpct rfl holdu hcrit
              exact absurd this.symm hne
          · intro u hu
            rcases getElem_setPc hu with ⟨_, h⟩ | ⟨_, holdu⟩
            · cases h
            · exact hRR u holdu
          · intro u hu
            rcases getElem_setPc hu with ⟨_, h⟩ | ⟨_, holdu⟩
            · cases h
            · exact hRS u holdu
          · intro u hu
            rcases getElem_setPc hu with ⟨_, h⟩ | ⟨_, holdu⟩
            · cases h
            · exact hSF u holdu
      | done => simp [stepOf, hpct] at hs
  · cases hL : σ.lockHolder with
    | some w => simp [uninitAction, hL] at hu
    | none =>
        simp only [uninitAction, hL] at hu
        have hσ1 := Option.some.inj hu
        subst hσ1
        refine ⟨?_, ?_, ?_, ?_, ?_⟩
        · intro u pcu hget hcrit
          have := hlock u pcu hget hcrit
          rw [hL] at this
          cases this
        · intro u hu2
          have := hlock u PC.resolveRef hu2 rfl
          rw [hL] at this
          cases this
        · intro u hu2
          have := hlock u PC.resolveStr hu2 rfl
          rw [hL] at this
          cases this
        · intro u hu2
          have := hlock u PC.setFlag hu2 rfl
          rw [hL] at this
          cases this
        · intro hf
          simp [jniInit] at hf

theorem initCState_pc {n u : Nat} {pcu : PC}
    (h : (initCState n).pcs[u]? = some pcu) : pcu = PC.fastCheck := by
  simp only [initCState, List.getElem?_replicate] at h
  split at h
  · exact (Option.some.inj h).symm
  · cases h

theorem invC1_init (n : Nat) : InvC1 (initCState n) := by
  refine ⟨?_, ?_, ?_, ?_, ?_⟩
  · intro u pcu hget hcrit
    rw [initCState_pc hget] at hcrit
    cases hcrit
  · intro u hu
    cases initCState_pc hu
  · intro u hu
    cases initCState_pc hu
  · intro u hu
    cases initCState_pc hu
  · intro hf
    cases hf

theorem invC1_reach (env : JNIEnvModel)
    (hFD : globalRefOf env "java/io/FileDescriptor" ≠ 0)
    (hRef : globalRefOf env "java/lang/ref/Reference" ≠ 0)
    (hStr : globalRefOf env "java/lang/String" ≠ 0)
    (n : Nat) (σ : CState) (h : ReachSys env n σ) : InvC1 σ := by
  have h0 : Relation.ReflTransGen (SysStep env) (initCState n) σ := h
  clear h
  induction h0 with
  | refl => exact invC1_init n
  | tail _ hstep ih => exact invC1_step env hFD hRef hStr ih hstep

/-!  Phase invariant: exactly-once batch resolution. -/

theorem ne_pc_setPc {σ : CState} {t : Nat} {pc : PC} {u : Nat} {pcx : PC}
    (hnew : pc ≠ pcx) (hold : σ.pcs[u]? ≠ some pcx) :
    (setPc σ t pc).pcs[u]? ≠ some pcx := by
  intro h
  rcases getElem_setPc h with ⟨_, he⟩ | ⟨_, holdq⟩
  · exact hnew he.symm
  · exact hold holdq

theorem exists_pc_setPc {σ : CState} {t : Nat} {pc : PC} {r : Nat} {pcx : PC}
    (hr : σ.pcs[r]? = some pcx) (hrt : r ≠ t) :
    (setPc σ t pc).pcs[r]? = some pcx := by
  rw [setPc, List.getElem?_set, if_neg (fun h => hrt h.symm)]
  exact hr

theorem ne_of_pc_ne {σ : CState} {r t : Nat} {pcx pct : PC}
    (hr : σ.pcs[r]? = some pcx) (ht : σ.pcs[t]? = some pct) (hne : pcx ≠ pct) :
    r ≠ t := by
  intro h
  subst h
  rw [hr] at ht
  exact hne (Option.some.inj ht)

theorem lockInv_step (env : JNIEnvModel) {σ σ1 : CState}
    (hlock : LockInv σ) (h : EnsureStep env σ σ1) : LockInv σ1 := by
  obtain ⟨t, hs⟩ := h
  cases hpct : σ.pcs[t]? with
  | none => simp [stepOf, hpct] at hs
  | some pc =>
    cases pc with
    | fastCheck =>
        simp only [stepOf, hpct] at hs
        split at hs
        all_goals
          cases Option.some.inj hs
          exact lockInv_setPc_notCrit hlock rfl
    | lockWait =>
        simp only [stepOf, hpct] at hs
        cases hL : σ.lockHolder with
        | some w => rw [hL] at hs; cases hs
        | none =>
            rw [hL] at hs
            cases Option.some.inj hs
            intro u pcu hget hcrit
            rcases getElem_setPc hget with ⟨he, _⟩ | ⟨_, holdu⟩
            · rw [he]
            · have hw := hlock u pcu holdu hcrit
              rw [hL] at hw
              cases hw
    | recheck =>
        simp only [stepOf, hpct] at hs
        split at hs
        all_goals
          cases Option.some.inj hs
          exact lockInv_setPc_crit hlock (hlock t PC.recheck hpct rfl)
    | resolveFD =>
        simp only [stepOf, hpct] at hs
        split at hs
        · cases hs
        · cases Option.some.inj hs
          exact lockInv_setPc_crit hlock (hlock t PC.resolveFD hpct rfl)
    | resolveRef =>
        simp only [stepOf, hpct] at hs
        split at hs
        · cases hs
        · cases Option.some.inj hs
          exact lockInv_setPc_crit hlock (hlock t PC.resolveRef hpct rfl)
    | resolveStr =>
        simp only [stepOf, hpct] at hs
        split at hs
        · cases hs
        · cases Option.some.inj hs
          exact lockInv_setPc_crit hlock (hlock t PC.resolveStr hpct rfl)
    | setFlag =>
        simp only [stepOf, hpct] at hs
        cases Option.some.inj hs
        exact lockInv_setPc_crit hlock (hlock t PC.setFlag hpct rfl)
    | unlock =>
        simp only [stepOf, hpct] at hs
        cases Option.some.inj hs
        intro u pcu hget hcrit
        rcases getElem_setPc hget with ⟨_, hpcu⟩ | ⟨hne, holdu⟩
        · subst hpcu; cases hcrit
        · exact absurd (lockInv_unique hlock hpct rfl holdu hcrit).symm hne
    | done => simp [stepOf, hpct] at hs

theorem getElem_setPc_self {σ : CState} {t : Nat} {pc : PC} (hlt : t < σ.pcs.length) :
    (setPc σ t pc).pcs[t]? = some pc := by
  rw [setPc, List.getElem?_set, if_pos rfl, if_pos hlt]

theorem pc_clash {σ : CState} {t r : Nat} {pca pcb : PC} (hlock : LockInv σ)
    (ht : σ.pcs[t]? = some pca) (hca : pca.inCrit = true)
    (hr : σ.pcs[r]? = some pcb) (hcb : pcb.inCrit = true) (hne : pca ≠ pcb) : False := by
  have heq := lockInv_unique hlock ht hca hr hcb
  subst heq
  rw [ht] at hr
  exact hne (Option.some.inj hr)

/-- Phase A: the flag is clear, no resolution has happened yet, no thread has
passed the first resolution statement. -/
def PhaseA (σ : CState) : Prop :=
  σ.mem.g_class_refs_initialized = false ∧
  σ.fdFinds = 0 ∧ σ.refFinds = 0 ∧ σ.strFinds = 0 ∧
  ∀ u : Nat, σ.pcs[u]? ≠ some PC.resolveRef ∧ σ.pcs[u]? ≠ some PC.resolveStr ∧
    σ.pcs[u]? ≠ some PC.setFlag

/-- Phase B: the resolving thread has executed the FileDescriptor line. -/
def PhaseB (env : JNIEnvModel) (σ : CState) : Prop :=
  σ.mem.g_class_refs_initialized = false ∧
  σ.fdFinds = 1 ∧ σ.refFinds = 0 ∧ σ.strFinds = 0 ∧
  σ.mem.g_file_descriptor_class = globalRefOf env "java/io/FileDescriptor" ∧
  ∃ r : Nat, σ.pcs[r]? = some PC.resolveRef

/-- Phase C: FileDescriptor and Reference resolved. -/
def PhaseC (env : JNIEnvModel) (σ : CState) : Prop :=
  σ.mem.g_class_refs_initialized = false ∧
  σ.fdFinds = 1 ∧ σ.refFinds = 1 ∧ σ.strFinds = 0 ∧
  σ.mem.g_file_descriptor_class = globalRefOf env "java/io/FileDescriptor" ∧
  σ.mem.g_reference_class = globalRefOf env "java/lang/ref/Reference" ∧
  ∃ r : Nat, σ.pcs[r]? = some PC.resolveStr

/-- Phase D: all three classes resolved, flag store still pending. -/
def PhaseD (env : JNIEnvModel) (σ : CState) : Prop :=
  σ.mem.g_class_refs_initialized = false ∧
  σ.fdFinds = 1 ∧ σ.refFinds = 1 ∧ σ.strFinds = 1 ∧
  σ.mem.g_file_descriptor_class = globalRefOf env "java/io/FileDescriptor" ∧
  σ.mem.g_reference_class = globalRefOf env "java/lang/ref/Reference" ∧
  σ.mem.g_string_class = globalRefOf env "java/lang/String" ∧
  ∃ r : Nat, σ.pcs[r]? = some PC.setFlag

/-- Phase E: the flag is set; each class was resolved exactly once and no
thread can reach a resolution statement again. -/
def PhaseE (env : JNIEnvModel) (σ : CState) : Prop :=
  σ.mem.g_class_refs_initialized = true ∧
  σ.fdFinds = 1 ∧ σ.refFinds = 1 ∧ σ.strFinds = 1 ∧
  σ.mem.g_file_descriptor_class = globalRefOf env "java/io/FileDescriptor" ∧
  σ.mem.g_reference_class = globalRefOf env "java/lang/ref/Reference" ∧
  σ.mem.g_string_class = globalRefOf env "java/lang/String" ∧
  ∀ u : Nat, σ.pcs[u]? ≠ some PC.resolveFD ∧ σ.pcs[u]? ≠ some PC.resolveRef ∧
    σ.pcs[u]? ≠ some PC.resolveStr ∧ σ.pcs[u]? ≠ some PC.setFlag

/-- Inductive invariant for the exactly-once property of the batch
resolution under concurrent first use. -/
def InvC3 (env : JNIEnvModel) (σ : CState) : Prop :=
  LockInv σ ∧ (PhaseA σ ∨ PhaseB env σ ∨ PhaseC env σ ∨ PhaseD env σ ∨ PhaseE env σ)

theorem invC3_step (env : JNIEnvModel) {σ σ1 : CState}
    (hinv : InvC3 env σ) (hstep : EnsureStep env σ σ1) : InvC3 env σ1 := by
  obtain ⟨hlock, hphase⟩ := hinv
  refine ⟨lockInv_step env hlock hstep, ?_⟩
  obtain ⟨t, hs⟩ := hstep
  cases hpct : σ.pcs[t]? with
  | none => simp [stepOf, hpct] at hs
  | some pc =>
    cases pc with
    | fastCheck =>
        simp only [stepOf, hpct] at hs
        split at hs
        case isTrue hflag =>
          cases Option.some.inj hs
          rcases hphase with hA | hB | hC | hD | hE
          · rw [hA.1] at hflag; cases hflag
          · rw [hB.1] at hflag; cases hflag
          · rw [hC.1] at hflag; cases hflag
          · rw [hD.1] at hflag; cases hflag
          · obtain ⟨hfl, hfd, hrf, hst, hgfd, hgref, hgstr, hE5⟩ := hE
            refine Or.inr (Or.inr (Or.inr (Or.inr
              ⟨hfl, hfd, hrf, hst, hgfd, hgref, hgstr, fun u => ?_⟩)))
            exact ⟨ne_pc_setPc (by decide) (hE5 u).1,
              ne_pc_setPc (by decide) (hE5 u).2.1,
              ne_pc_setPc (by decide) (hE5 u).2.2.1,
              ne_pc_setPc (by decide) (hE5 u).2.2.2⟩
        case isFalse hflag =>
          cases Option.some.inj hs
          rcases hphase with hA | hB | hC | hD | hE
          · obtain ⟨hfl, hfd, hrf, hst, hA5⟩ := hA
            refine Or.inl ⟨hfl, hfd, hrf, hst, fun u => ?_⟩
            exact ⟨ne_pc_setPc (by decide) (hA5 u).1,
              ne_pc_setPc (by decide) (hA5 u).2.1,
              ne_pc_setPc (by decide) (hA5 u).2.2⟩
          · obtain ⟨hfl, hfd, hrf, hst, hgfd, r, hr⟩ := hB
            exact Or.inr (Or.inl ⟨hfl, hfd, hrf, hst, hgfd, r,
              exists_pc_setPc hr (ne_of_pc_ne hr hpct (by decide))⟩)
          · obtain ⟨hfl, hfd, hrf, hst, hgfd, hgref, r, hr⟩ := hC
            exact Or.inr (Or.inr (Or.inl ⟨hfl, hfd, hrf, hst, hgfd, hgref, r,
              exists_pc_setPc hr (ne_of_pc_ne hr hpct (by decide))⟩))
          · obtain ⟨hfl, hfd, hrf, hst, hgfd, hgref, hgstr, r, hr⟩ := hD
            exact Or.inr (Or.inr (Or.inr (Or.inl
              ⟨hfl, hfd, hrf, hst, hgfd, hgref, hgstr, r,
                exists_pc_setPc hr (ne_of_pc_ne hr hpct (by decide))⟩)))
          · exact absurd hE.1 hflag
    | lockWait =>
        simp only [stepOf, hpct] at hs
        cases hL : σ.lockHolder with
        | some w => rw [hL] at hs; cases hs
        | none =>
            rw [hL] at hs
            cases Option.some.inj hs
            rcases hphase with hA | hB | hC | hD | hE
            · obtain ⟨hfl, hfd, hrf, hst, hA5⟩ := hA
              refine Or.inl ⟨hfl, hfd, hrf, hst, fun u => ?_⟩
              exact ⟨ne_pc_setPc (by decide) (hA5 u).1,
                ne_pc_setPc (by decide) (hA5 u).2.1,
                ne_pc_setPc (by decide) (hA5 u).2.2⟩
            · obtain ⟨_, _, _, _, _, r, hr⟩ := hB
              have hw := hlock r PC.resolveRef hr rfl
              rw [hL] at hw; cases hw
            · obtain ⟨_, _, _, _, _, _, r, hr⟩ := hC
              have hw := hlock r PC.resolveStr hr rfl
              rw [hL] at hw; cases hw
            · obtain ⟨_, _, _, _, _, _, _, r, hr⟩ := hD
              have hw := hlock r PC.setFlag hr rfl
              rw [hL] at hw; cases hw
            · obtain ⟨hfl, hfd, hrf, hst, hgfd, hgref, hgstr, hE5⟩ := hE
              refine Or.inr (Or.inr (Or.inr (Or.inr
                ⟨hfl, hfd, hrf, hst, hgfd, hgref, hgstr, fun u => ?_⟩)))
              exact ⟨ne_pc_setPc (by decide) (hE5 u).1,
                ne_pc_setPc (by decide) (hE5 u).2.1,
                ne_pc_setPc (by decide) (hE5 u).2.2.1,
                ne_pc_setPc (by decide) (hE5 u).2.2.2⟩
    | recheck =>
        simp only [stepOf, hpct] at hs
        split at hs
        case isTrue hflag =>
          cases Option.some.inj hs
          rcases hphase with hA | hB | hC | hD | hE
          · rw [hA.1] at hflag; cases hflag
          · rw [hB.1] at hflag; cases hflag
          · rw [hC.1] at hflag; cases hflag
          · rw [hD.1] at hflag; cases hflag
          · obtain ⟨hfl, hfd, hrf, hst, hgfd, hgref, hgstr, hE5⟩ := hE
            refine Or.inr (Or.inr (Or.inr (Or.inr
              ⟨hfl, hfd, hrf, hst, hgfd, hgref, hgstr, fun u => ?_⟩)))
            exact ⟨ne_pc_setPc (by decide) (hE5 u).1,
              ne_pc_setPc (by decide) (hE5 u).2.1,
              ne_pc_setPc (by decide) (hE5 u).2.2.1,
              ne_pc_setPc (by decide) (hE5 u).2.2.2⟩
        case isFalse hflag =>
          cases Option.some.inj hs
          rcases hphase with hA | hB | hC | hD | hE
          · obtain ⟨hfl, hfd, hrf, hst, hA5⟩ := hA
            refine Or.inl ⟨hfl, hfd, hrf, hst, fun u => ?_⟩
            exact ⟨ne_pc_setPc (by decide) (hA5 u).1,
              ne_pc_setPc (by decide) (hA5 u).2.1,
              ne_pc_setPc (by decide) (hA5 u).2.2⟩
          · obtain ⟨_, _, _, _, _, r, hr⟩ := hB
            exact (pc_clash hlock hpct rfl hr rfl (by decide)).elim
          · obtain ⟨_, _, _, _, _, _, r, hr⟩ := hC
            exact (pc_clash hlock hpct rfl hr rfl (by decide)).elim
          · obtain ⟨_, _, _, _, _, _, _, r, hr⟩ := hD
            exact (pc_clash hlock hpct rfl hr rfl (by decide)).elim
          · exact absurd hE.1 hflag
    | resolveFD =>
        simp only [stepOf, hpct] at hs
        split at hs
        · cases hs
        · cases Option.some.inj hs
          rcases hphase with hA | hB | hC | hD | hE
          · obtain ⟨hfl, hfd, hrf, hst, hA5⟩ := hA
            refine Or.inr (Or.inl ⟨hfl, ?_, hrf, hst, rfl, t, ?_⟩)
            · show σ.fdFinds + 1 = 1
              rw [hfd]
            · exact getElem_setPc_self (lt_length_of_getElem σ t PC.resolveFD hpct)
          · obtain ⟨_, _, _, _, _, r, hr⟩ := hB
            exact (pc_clash hlock hpct rfl hr rfl (by decide)).elim
          · obtain ⟨_, _, _, _, _, _, r, hr⟩ := hC
            exact (pc_clash hlock hpct rfl hr rfl (by decide)).elim
          · obtain ⟨_, _, _, _, _, _, _, r, hr⟩ := hD
            exact (pc_clash hlock hpct rfl hr rfl (by decide)).elim
          · exact absurd hpct (hE.2.2.2.2.2.2.2 t).1
    | resolveRef =>
        simp only [stepOf, hpct] at hs
        split at hs
        · cases hs
        · cases Option.some.inj hs
          rcases hphase with hA | hB | hC | hD | hE
          · exact absurd hpct (hA.2.2.2.2 t).1
          · obtain ⟨hfl, hfd, hrf, hst, hgfd, r, hr⟩ := hB
            refine Or.inr (Or.inr (Or.inl ⟨hfl, hfd, ?_, hst, hgfd, rfl, t, ?_⟩))
            · show σ.refFinds + 1 = 1
              rw [hrf]
            · exact getElem_setPc_self (lt_length_of_getElem σ t PC.resolveRef hpct)
          · obtain ⟨_, _, _, _, _, _, r, hr⟩ := hC
            exact (pc_clash hlock hpct rfl hr rfl (by decide)).elim
          · obtain ⟨_, _, _, _, _, _, _, r, hr⟩ := hD
            exact (pc_clash hlock hpct rfl hr rfl (by decide)).elim
          · exact absurd hpct (hE.2.2.2.2.2.2.2 t).2.1
    | resolveStr =>
        simp only [stepOf, hpct] at hs
        split at hs
        · cases hs
        · cases Option.some.inj hs
          rcases hphase with hA | hB | hC | hD | hE
          · exact absurd hpct (hA.2.2.2.2 t).2.1
          · obtain ⟨_, _, _, _, _, r, hr⟩ := hB
            exact (pc_clash hlock hpct rfl hr rfl (by decide)).elim
          · obtain ⟨hfl, hfd, hrf, hst, hgfd, hgref, r, hr⟩ := hC
            refine Or.inr (Or.inr (Or.inr (Or.inl
              ⟨hfl, hfd, hrf, ?_, hgfd, hgref, rfl, t, ?_⟩)))
            · show σ.strFinds + 1 = 1
              rw [hst]
            · exact getElem_setPc_self (lt_length_of_getElem σ t PC.resolveStr hpct)
          · obtain ⟨_, _, _, _, _, _, _, r, hr⟩ := hD
            exact (pc_clash hlock hpct rfl hr rfl (by decide)).elim
          · exact absurd hpct (hE.2.2.2.2.2.2.2 t).2.2.1
    | setFlag =>
        simp only [stepOf, hpct] at hs
        cases Option.some.inj hs
        rcases hphase with hA | hB | hC | hD | hE
        · exact absurd hpct (hA.2.2.2.2 t).2.2
        · obtain ⟨_, _, _, _, _, r, hr⟩ := hB
          exact (pc_clash hlock hpct rfl hr rfl (by decide)).elim
        · obtain ⟨_, _, _, _, _, _, r, hr⟩ := hC
          exact (pc_clash hlock hpct rfl hr rfl (by decide)).elim
        · obtain ⟨hfl, hfd, hrf, hst, hgfd, hgref, hgstr, r, hr⟩ := hD
          refine Or.inr (Or.inr (Or.inr (Or.inr
            ⟨rfl, hfd, hrf, hst, hgfd, hgref, hgstr, fun u => ?_⟩)))
          refine ⟨?_, ?_, ?_, ?_⟩
          · intro hcon
            rcases getElem_setPc hcon with ⟨_, he⟩ | ⟨_, holdq⟩
            · cases he
            · exact pc_clash hlock holdq rfl hpct rfl (by decide)
          · intro hcon
            rcases getElem_setPc hcon with ⟨_, he⟩ | ⟨_, holdq⟩
            · cases he
            · exact pc_clash hlock holdq rfl hpct rfl (by decide)
          · intro hcon
            rcases getElem_setPc hcon with ⟨_, he⟩ | ⟨_, holdq⟩
            · cases he
            · exact pc_clash hlock holdq rfl hpct rfl (by decide)
          · intro hcon
            rcases getElem_setPc hcon with ⟨_, he⟩ | ⟨hne, holdq⟩
            · cases he
            · exact hne (lockInv_unique hlock holdq rfl hpct rfl)
        · exact absurd hpct (hE.2.2.2.2.2.2.2 t).2.2.2
    | unlock =>
        simp only [stepOf, hpct] at hs
        cases Option.some.inj hs
        rcases hphase with hA | hB | hC | hD | hE
        · obtain ⟨hfl, hfd, hrf, hst, hA5⟩ := hA
          refine Or.inl ⟨hfl, hfd, hrf, hst, fun u => ?_⟩
          exact ⟨ne_pc_setPc (by decide) (hA5 u).1,
            ne_pc_setPc (by decide) (hA5 u).2.1,
            ne_pc_setPc (by decide) (hA5 u).2.2⟩
        · obtain ⟨_, _, _, _, _, r, hr⟩ := hB
          exact (pc_clash hlock hpct rfl hr rfl (by decide)).elim
        · obtain ⟨_, _, _, _, _, _, r, hr⟩ := hC
          exact (pc_clash hlock hpct rfl hr rfl (by decide)).elim
        · obtain ⟨_, _, _, _, _, _, _, r, hr⟩ := hD
          exact (pc_clash hlock hpct rfl hr rfl (by decide)).elim
        · obtain ⟨hfl, hfd, hrf, hst, hgfd, hgref, hgstr, hE5⟩ := hE
          refine Or.inr (Or.inr (Or.inr (Or.inr
            ⟨hfl, hfd, hrf, hst, hgfd, hgref, hgstr, fun u => ?_⟩)))
          exact ⟨ne_pc_setPc (by decide) (hE5 u).1,
            ne_pc_setPc (by decide) (hE5 u).2.1,
            ne_pc_setPc (by decide) (hE5 u).2.2.1,
            ne_pc_setPc (by decide) (hE5 u).2.2.2⟩
    | done => simp [stepOf, hpct] at hs

theorem invC3_init (env : JNIEnvModel) (n : Nat) : InvC3 env (initCState n) := by
  refine ⟨(invC1_init n).1, Or.inl ⟨rfl, rfl, rfl, rfl, fun u => ?_⟩⟩
  refine ⟨?_, ?_, ?_⟩
  all_goals
    intro hcon
    cases initCState_pc hcon

theorem invC3_reach (env : JNIEnvModel) (n : Nat) (σ : CState)
    (h : ReachE env n σ) : InvC3 env σ := by
  have h0 : Relation.ReflTransGen (EnsureStep env) (initCState n) σ := h
  clear h
  induction h0 with
  | refl => exact invC3_init env n
  | tail _ hstep ih => exact invC3_step env ih hstep

/-!
Helper-surface functions over the cache: the file-descriptor accessors of
`JNIHelp.c` (C variant, second part of `src/JNIHelpCompat.c`) and `JNIHelp.cpp`
(C++ variant, second part of `src/tests/JniInvocation_test.cpp`), which have
the same structure over the `JniConstants` descriptor-field accessor, and the
legacy compat accessor `jniGetFDFromFileDescriptor_QR` of `JNIHelpCompat.c`,
which keeps its own function-local static cache.
-/

/-- The function-local `static jfieldID g_descriptorFieldID` of
`jniGetFDFromFileDescriptor_QR` (`JNIHelpCompat.c` line 38).  It is a static
of the compat library, separate from the `JniConstants.cpp` globals;
`JniConstants::Uninitialize` does not touch it. -/
structure QRState where
  g_descriptorFieldID : Nat
deriving DecidableEq, Repr

/-- `jniGetFDFromFileDescriptor_QR` (`JNIHelpCompat.c` lines 33-46): null
argument returns -1 at once; otherwise the field id is resolved on first use
into the function-local static (`FindClass`, `GetFieldID`, `DeleteLocalRef`)
and the int field of the argument is read. -/
def jniGetFDFromFileDescriptor_QR (env : JNIEnvModel) (fileDescriptor : Nat)
    (q : QRState) : Int × QRState × List Ev :=
  if fileDescriptor = 0 then
    (-1, q, [])
  else
    let resolved :=
      if q.g_descriptorFieldID = 0 then
        ({ g_descriptorFieldID :=
             env.getFieldID (env.findClassLocal "java/io/FileDescriptor") "descriptor" "I" },
         [Ev.findClassCall "java/io/FileDescriptor",
          Ev.getFieldIDCall (env.findClassLocal "java/io/FileDescriptor") "descriptor" "I",
          Ev.deleteLocalRefCall (env.findClassLocal "java/io/FileDescriptor")])
      else (q, [])
    (env.getIntField fileDescriptor resolved.1.g_descriptorFieldID, resolved.1,
     resolved.2 ++ [Ev.getIntFieldCall fileDescriptor resolved.1.g_descriptorFieldID])

/-- `jniGetFDFromFileDescriptor` (`JNIHelp.c` lines 382-389; identical
structure in the C++ variant, `JNIHelp.cpp` lines 392-400): a non-null
argument has its int `descriptor` field read with the field id from the
`JniConstants` cache; a null argument yields -1 with no runtime call. -/
def jniGetFDFromFileDescriptor (env : JNIEnvModel) (fileDescriptor : Nat) (s : JniState) :
    Except String (Int × JniState × List Ev) :=
  if fileDescriptor ≠ 0 then
    match GetFileDescriptorDescriptorField env s with
    | Except.error e => Except.error e
    | Except.ok (fid, s1, t) =>
        Except.ok (env.getIntField fileDescriptor fid, s1,
          t ++ [Ev.getIntFieldCall fileDescriptor fid])
  else
    Except.ok (-1, s, [])

/-- `jniThrowException` (`JNIHelp.c` lines 329-348): any pending exception is
discarded (logged) first; if the exception class cannot be found a
ClassNotFoundException is pending and -1 returned; otherwise `ThrowNew`
makes the named exception pending (status 0), or on failure (most likely
OOM, per the source comment) leaves the runtime's own exception pending and
returns -1. -/
def jniThrowException (env : JNIEnvModel) (_pending : Option String)
    (className : String) (msg : String) : Int × Option String × List Ev :=
  if env.findClassLocal className = 0 then
    (-1, some "java/lang/ClassNotFoundException", [Ev.findClassCall className])
  else if env.throwNewOk className msg then
    (0, some className,
     [Ev.findClassCall className, Ev.throwNewCall className msg,
      Ev.deleteLocalRefCall (env.findClassLocal className)])
  else
    (-1, some env.oomClass,
     [Ev.findClassCall className, Ev.deleteLocalRefCall (env.findClassLocal className)])

/-- `jniThrowNullPointerException` (`JNIHelp.c` lines 356-358). -/
def jniThrowNullPointerException (env : JNIEnvModel) (pending : Option String)
    (msg : String) : Int × Option String × List Ev :=
  jniThrowException env pending "java/lang/NullPointerException" msg

/-- `jniSetFileDescriptorOfFD` (`JNIHelp.c` lines 391-398; identical
structure in the C++ variant, `JNIHelp.cpp` lines 402-409): null argument
throws a NullPointerException and performs no field write; otherwise the
int `descriptor` field of the argument is set to `value`.  The first
component of the result is the pending-exception state after the call. -/
def jniSetFileDescriptorOfFD (env : JNIEnvModel) (pending : Option String)
    (fileDescriptor : Nat) (value : Int) (s : JniState) :
    Except String (Option String × JniState × List Ev) :=
  if fileDescriptor = 0 then
    Except.ok ((jniThrowNullPointerException env pending "null FileDescriptor").2.1, s,
      (jniThrowNullPointerException env pending "null FileDescriptor").2.2)
  else
    match GetFileDescriptorDescriptorField env s with
    | Except.error e => Except.error e
    | Except.ok (fid, s1, t) =>
        Except.ok (pending, s1, t ++ [Ev.setIntFieldCall fileDescriptor fid value])

/-- Net mutex effect of one event. -/
def evLockDelta : Ev → Int
  | Ev.lockAcq => 1
  | Ev.lockRel => -1
  | _ => 0

/-- Net mutex depth after a trace: number of acquisitions minus releases.
Zero for a balanced trace; the guard is held at a point of a run iff the
depth of the preceding trace is positive. -/
def lockDepth (t : List Ev) : Int :=
  (t.map evLockDelta).sum

/-- Concrete well-behaved runtime model used in witnesses: all lookups
succeed and are non-null. -/
def envA : JNIEnvModel :=
  { findClassLocal := fun _ => 5
    newGlobalRef := fun r => r + 10
    getFieldID := fun _ _ _ => 7
    getMethodID := fun _ _ _ => 9
    getIntField := fun _ _ => 3
    throwNewOk := fun _ _ => true
    oomClass := "java/lang/OutOfMemoryError" }

/-- Runtime model whose class lookups succeed but whose `NewGlobalRef`
returns null (out of memory), as the JNI specification permits. -/
def envOOM : JNIEnvModel :=
  { findClassLocal := fun _ => 1
    newGlobalRef := fun _ => 0
    getFieldID := fun _ _ _ => 1
    getMethodID := fun _ _ _ => 1
    getIntField := fun _ _ => 0
    throwNewOk := fun _ _ => true
    oomClass := "java/lang/OutOfMemoryError" }

/-!  Characterizations of the sequential runs. -/

theorem lockDepth_append (a b : List Ev) :
    lockDepth (a ++ b) = lockDepth a + lockDepth b := by
  simp [lockDepth]

theorem FindClass_ok {env : JNIEnvModel} {name : String} {g : Nat} {t : List Ev}
    (h : FindClass env name = Except.ok (g, t)) :
    env.findClassLocal name ≠ 0 ∧ g = globalRefOf env name ∧
    t = [Ev.findClassCall name, Ev.newGlobalRefCall (env.findClassLocal name),
         Ev.deleteLocalRefCall (env.findClassLocal name)] := by
  simp only [FindClass] at h
  split at h
  · cases h
  · next hne =>
      simp only [Except.ok.injEq, Prod.mk.injEq] at h
      exact ⟨hne, h.1.symm, h.2.symm⟩

theorem FindClass_eq_ok {env : JNIEnvModel} {name : String}
    (h : env.findClassLocal name ≠ 0) :
    FindClass env name = Except.ok (globalRefOf env name,
      [Ev.findClassCall name, Ev.newGlobalRefCall (env.findClassLocal name),
       Ev.deleteLocalRefCall (env.findClassLocal name)]) := by
  simp only [FindClass]
  rw [if_neg h]
  rfl

theorem FindField_ok {env : JNIEnvModel} {klass : Nat} {name desc : String}
    {fid : Nat} {t : List Ev}
    (h : FindField env klass name desc = Except.ok (fid, t)) :
    fid ≠ 0 ∧ fid = env.getFieldID klass name desc ∧
    t = [Ev.getFieldIDCall klass name desc] := by
  simp only [FindField] at h
  split at h
  · cases h
  · next hne =>
      simp only [Except.ok.injEq, Prod.mk.injEq] at h
      refine ⟨?_, h.1.symm, h.2.symm⟩
      rw [h.1] at hne
      exact hne

theorem FindMethod_ok {env : JNIEnvModel} {klass : Nat} {name sig : String}
    {mid : Nat} {t : List Ev}
    (h : FindMethod env klass name sig = Except.ok (mid, t)) :
    mid ≠ 0 ∧ mid = env.getMethodID klass name sig ∧
    t = [Ev.getMethodIDCall klass name sig] := by
  simp only [FindMethod] at h
  split at h
  · cases h
  · next hne =>
      simp only [Except.ok.injEq, Prod.mk.injEq] at h
      refine ⟨?_, h.1.symm, h.2.symm⟩
      rw [h.1] at hne
      exact hne

theorem ensure_flag_true {env : JNIEnvModel} {s : JniState}
    (h : s.g_class_refs_initialized = true) :
    EnsureClassReferencesInitialized env s = Except.ok (s, []) := by
  simp only [EnsureClassReferencesInitialized]
  rw [if_pos h]

theorem ensure_flag_false {env : JNIEnvModel} {s : JniState} {s1 : JniState} {t : List Ev}
    (h0 : s.g_class_refs_initialized = false)
    (h : EnsureClassReferencesInitialized env s = Except.ok (s1, t)) :
    env.findClassLocal "java/io/FileDescriptor" ≠ 0 ∧
    env.findClassLocal "java/lang/ref/Reference" ≠ 0 ∧
    env.findClassLocal "java/lang/String" ≠ 0 ∧
    s1 = { s with
      g_file_descriptor_class := globalRefOf env "java/io/FileDescriptor"
      g_reference_class := globalRefOf env "java/lang/ref/Reference"
      g_string_class := globalRefOf env "java/lang/String"
      g_class_refs_initialized := true } ∧
    t = Ev.lockAcq ::
      ([Ev.findClassCall "java/io/FileDescriptor",
        Ev.newGlobalRefCall (env.findClassLocal "java/io/FileDescriptor"),
        Ev.deleteLocalRefCall (env.findClassLocal "java/io/FileDescriptor")] ++
       [Ev.findClassCall "java/lang/ref/Reference",
        Ev.newGlobalRefCall (env.findClassLocal "java/lang/ref/Reference"),
        Ev.deleteLocalRefCall (env.findClassLocal "java/lang/ref/Reference")] ++
       [Ev.findClassCall "java/lang/String",
        Ev.newGlobalRefCall (env.findClassLocal "java/lang/String"),
        Ev.deleteLocalRefCall (env.findClassLocal "java/lang/String")] ++
       [Ev.lockRel]) := by
  simp only [EnsureClassReferencesInitialized] at h
  rw [if_neg (by rw [h0]; exact Bool.false_ne_true), if_neg (by rw [h0]; exact Bool.false_ne_true)] at h
  cases hfd : FindClass env "java/io/FileDescriptor" with
  | error e => rw [hfd] at h; cases h
  | ok v1 =>
      obtain ⟨fd, t1⟩ := v1
      rw [hfd] at h
      cases href : FindClass env "java/lang/ref/Reference" with
      | error e => rw [href] at h; cases h
      | ok v2 =>
          obtain ⟨ref, t2⟩ := v2
          rw [href] at h
          cases hstr : FindClass env "java/lang/String" with
          | error e => rw [hstr] at h; cases h
          | ok v3 =>
              obtain ⟨str, t3⟩ := v3
              rw [hstr] at h
              obtain ⟨hfd1, hfd2, hfd3⟩ := FindClass_ok hfd
              obtain ⟨href1, href2, href3⟩ := FindClass_ok href
              obtain ⟨hstr1, hstr2, hstr3⟩ := FindClass_ok hstr
              simp only [Except.ok.injEq, Prod.mk.injEq] at h
              refine ⟨hfd1, href1, hstr1, ?_, ?_⟩
              · rw [← h.1, hfd2, href2, hstr2]
              · rw [← h.2, hfd3, href3, hstr3]

theorem ensure_trace_balanced {env : JNIEnvModel} {s s1 : JniState} {t : List Ev}
    (h : EnsureClassReferencesInitialized env s = Except.ok (s1, t)) :
    lockDepth t = 0 := by
  cases h0 : s.g_class_refs_initialized with
  | true =>
      rw [ensure_flag_true h0] at h
      simp only [Except.ok.injEq, Prod.mk.injEq] at h
      rw [← h.2]
      rfl
  | false =>
      obtain ⟨_, _, _, _, ht⟩ := ensure_flag_false h0 h
      rw [ht]
      rfl

theorem getFDclass_ok {env : JNIEnvModel} {s : JniState} {klass : Nat}
    {s1 : JniState} {t : List Ev}
    (h : GetFileDescriptorClass env s = Except.ok (klass, s1, t)) :
    EnsureClassReferencesInitialized env s = Except.ok (s1, t) ∧
    klass = s1.g_file_descriptor_class := by
  simp only [GetFileDescriptorClass] at h
  cases he : EnsureClassReferencesInitialized env s with
  | error e => rw [he] at h; cases h
  | ok v =>
      obtain ⟨s2, t2⟩ := v
      rw [he] at h
      simp only [Except.ok.injEq, Prod.mk.injEq] at h
      obtain ⟨h1, h2, h3⟩ := h
      rw [← h2, ← h3]
      exact ⟨rfl, h1.symm⟩

theorem getRefclass_ok {env : JNIEnvModel} {s : JniState} {klass : Nat}
    {s1 : JniState} {t : List Ev}
    (h : GetReferenceClass env s = Except.ok (klass, s1, t)) :
    EnsureClassReferencesInitialized env s = Except.ok (s1, t) ∧
    klass = s1.g_reference_class := by
  simp only [GetReferenceClass] at h
  cases he : EnsureClassReferencesInitialized env s with
  | error e => rw [he] at h; cases h
  | ok v =>
      obtain ⟨s2, t2⟩ := v
      rw [he] at h
      simp only [Except.ok.injEq, Prod.mk.injEq] at h
      obtain ⟨h1, h2, h3⟩ := h
      rw [← h2, ← h3]
      exact ⟨rfl, h1.symm⟩

theorem getFDfield_cached {env : JNIEnvModel} {s : JniState}
    (h : s.g_file_descriptor_descriptor_field ≠ 0) :
    GetFileDescriptorDescriptorField env s =
      Except.ok (s.g_file_descriptor_descriptor_field, s, []) := by
  simp only [GetFileDescriptorDescriptorField]
  rw [if_neg h]

theorem getFDfield_ok {env : JNIEnvModel} {s : JniState} {fid : Nat}
    {s1 : JniState} {t : List Ev}
    (h : GetFileDescriptorDescriptorField env s = Except.ok (fid, s1, t)) :
    fid ≠ 0 ∧ s1.g_file_descriptor_descriptor_field = fid := by
  by_cases h0 : s.g_file_descriptor_descriptor_field = 0
  · simp only [GetFileDescriptorDescriptorField, if_pos h0] at h
    cases hc : GetFileDescriptorClass env s with
    | error e => rw [hc] at h; cases h
    | ok v =>
        obtain ⟨klass, s2, t1⟩ := v
        simp only [hc] at h
        cases hf : FindField env klass "descriptor" "I" with
        | error e => rw [hf] at h; cases h
        | ok w =>
            obtain ⟨fid0, t2⟩ := w
            rw [hf] at h
            simp only [Except.ok.injEq, Prod.mk.injEq] at h
            obtain ⟨h1, h2, _⟩ := h
            obtain ⟨hf1, _, _⟩ := FindField_ok hf
            constructor
            · rw [← h1]; exact hf1
            · rw [← h2]; exact h1
  · rw [getFDfield_cached h0] at h
    simp only [Except.ok.injEq, Prod.mk.injEq] at h
    obtain ⟨h1, h2, _⟩ := h
    constructor
    · rw [← h1]; exact h0
    · rw [← h2, ← h1]

theorem getFDfield_uncached {env : JNIEnvModel} {s : JniState} {fid : Nat}
    {s1 : JniState} {t : List Ev}
    (h0 : s.g_file_descriptor_descriptor_field = 0)
    (h : GetFileDescriptorDescriptorField env s = Except.ok (fid, s1, t)) :
    ∃ klass s2 t1, GetFileDescriptorClass env s = Except.ok (klass, s2, t1) ∧
      t = t1 ++ [Ev.getFieldIDCall klass "descriptor" "I"] ∧
      fid = env.getFieldID klass "descriptor" "I" ∧
      s1 = { s2 with g_file_descriptor_descriptor_field := fid } := by
  simp only [GetFileDescriptorDescriptorField, if_pos h0] at h
  cases hc : GetFileDescriptorClass env s with
  | error e => rw [hc] at h; cases h
  | ok v =>
      obtain ⟨klass, s2, t1⟩ := v
      simp only [hc] at h
      cases hf : FindField env klass "descriptor" "I" with
      | error e => rw [hf] at h; cases h
      | ok w =>
          obtain ⟨fid0, t2⟩ := w
          rw [hf] at h
          simp only [Except.ok.injEq, Prod.mk.injEq] at h
          obtain ⟨h1, h2, h3⟩ := h
          obtain ⟨_, hf2, hf3⟩ := FindField_ok hf
          refine ⟨klass, s2, t1, rfl, ?_, ?_, ?_⟩
          · rw [← h3, hf3]
          · rw [← h1]; exact hf2
          · rw [← h2, ← h1]

theorem getFDinit_cached {env : JNIEnvModel} {s : JniState}
    (h : s.g_file_descriptor_init_method ≠ 0) :
    GetFileDescriptorInitMethod env s =
      Except.ok (s.g_file_descriptor_init_method, s, []) := by
  simp only [GetFileDescriptorInitMethod]
  rw [if_neg h]

theorem getFDinit_uncached {env : JNIEnvModel} {s : JniState} {mid : Nat}
    {s1 : JniState} {t : List Ev}
    (h0 : s.g_file_descriptor_init_method = 0)
    (h : GetFileDescriptorInitMethod env s = Except.ok (mid, s1, t)) :
    ∃ klass s2 t1, GetFileDescriptorClass env s = Except.ok (klass, s2, t1) ∧
      t = t1 ++ [Ev.getMethodIDCall klass "<init>" "()V"] ∧
      mid = env.getMethodID klass "<init>" "()V" ∧
      s1 = { s2 with g_file_descriptor_init_method := mid } := by
  simp only [GetFileDescriptorInitMethod, if_pos h0] at h
  cases hc : GetFileDescriptorClass env s with
  | error e => rw [hc] at h; cases h
  | ok v =>
      obtain ⟨klass, s2, t1⟩ := v
      simp only [hc] at h
      cases hf : FindMethod env klass "<init>" "()V" with
      | error e => rw [hf] at h; cases h
      | ok w =>
          obtain ⟨mid0, t2⟩ := w
          rw [hf] at h
          simp only [Except.ok.injEq, Prod.mk.injEq] at h
          obtain ⟨h1, h2, h3⟩ := h
          obtain ⟨_, hf2, hf3⟩ := FindMethod_ok hf
          refine ⟨klass, s2, t1, rfl, ?_, ?_, ?_⟩
          · rw [← h3, hf3]
          · rw [← h1]; exact hf2
          · rw [← h2, ← h1]

theorem getRefMethod_cached {env : JNIEnvModel} {s : JniState}
    (h : s.g_reference_get_method ≠ 0) :
    GetReferenceGetMethod env s =
      Except.ok (s.g_reference_get_method, s, []) := by
  simp only [GetReferenceGetMethod]
  rw [if_neg h]

theorem getRefMethod_ok {env : JNIEnvModel} {s : JniState} {mid : Nat}
    {s1 : JniState} {t : List Ev}
    (h : GetReferenceGetMethod env s = Except.ok (mid, s1, t)) :
    mid ≠ 0 ∧ s1.g_reference_get_method = mid := by
  by_cases h0 : s.g_reference_get_method = 0
  · simp only [GetReferenceGetMethod, if_pos h0] at h
    cases hc : GetReferenceClass env s with
    | error e => rw [hc] at h; cases h
    | ok v =>
        obtain ⟨klass, s2, t1⟩ := v
        simp only [hc] at h
        cases hf : FindMethod env klass "get" "()Ljava/lang/Object;" with
        | error e => rw [hf] at h; cases h
        | ok w =>
            obtain ⟨mid0, t2⟩ := w
            rw [hf] at h
            simp only [Except.ok.injEq, Prod.mk.injEq] at h
            obtain ⟨h1, h2, _⟩ := h
            obtain ⟨hf1, _, _⟩ := FindMethod_ok hf
            constructor
            · rw [← h1]; exact hf1
            · rw [← h2]; exact h1
  · rw [getRefMethod_cached h0] at h
    simp only [Except.ok.injEq, Prod.mk.injEq] at h
    obtain ⟨h1, h2, _⟩ := h
    constructor
    · rw [← h1]; exact h0
    · rw [← h2, ← h1]

/-!  Claim theorems. -/

/-- C4: after `Uninitialize` (`Reset`) returns, every cached slot is cleared —
the three class handles, both field ids and both method ids are null and the
flag is false, i.e. the globals are exactly the process-start state
`jniInit`, with the sequential run bracketed by an acquisition and release of
the guard — and in the interleaved system the `Uninitialize` action is
enabled only while `g_class_refs_mutex` is free, so the clearing is mutually
exclusive with any in-progress initialization critical section of the same
guard. -/
theorem C4_reset_clears_everything :
    (∀ s : JniState, (Uninit s).1 = jniInit ∧ (Uninit s).2 = [Ev.lockAcq, Ev.lockRel]) ∧
    (∀ σ σ1 : CState, uninitAction σ = some σ1 →
      σ.lockHolder = none ∧ σ1.mem = jniInit ∧ σ1.pcs = σ.pcs ∧ σ1.lockHolder = none) := by
  constructor
  · intro s
    exact ⟨rfl, rfl⟩
  · intro σ σ1 h
    cases hL : σ.lockHolder with
    | some w => simp [uninitAction, hL] at h
    | none =>
        simp only [uninitAction, hL] at h
        cases Option.some.inj h
        exact ⟨rfl, rfl, rfl, rfl⟩

/-- A fully populated sample cache state, used to exhibit the clearing. -/
def c4SampleState : JniState :=
  { g_file_descriptor_class := 11
    g_reference_class := 12
    g_string_class := 13
    g_file_descriptor_descriptor_field := 14
    g_file_descriptor_owner_id_field := 15
    g_file_descriptor_init_method := 16
    g_reference_get_method := 17
    g_class_refs_initialized := true }

/-- A sample interleaved-system state with the mutex free. -/
def c4SampleCState : CState :=
  { mem := c4SampleState
    lockHolder := none
    pcs := [PC.fastCheck, PC.done]
    fdFinds := 1
    refFinds := 1
    strFinds := 1 }

theorem C4_witness :
    (Uninit c4SampleState).1 = jniInit ∧
    (c4SampleCState.lockHolder = none ∧
     ({ c4SampleCState with mem := jniInit } : CState).mem = jniInit ∧
     ({ c4SampleCState with mem := jniInit } : CState).pcs = c4SampleCState.pcs ∧
     ({ c4SampleCState with mem := jniInit } : CState).lockHolder = none) :=
  ⟨(C4_reset_clears_everything.1 c4SampleState).1,
   C4_reset_clears_everything.2 c4SampleCState { c4SampleCState with mem := jniInit } (by decide)⟩

/-- C6: within one runtime lifetime (no intervening reset), once a field or
method accessor has resolved its slot, the value is non-null and every later
call of the same accessor returns the same cached value with no further
lookup (empty event trace) and no state change; shown for
`GetFileDescriptorDescriptorField` and `GetReferenceGetMethod`. -/
theorem C6_repeated_accessor_calls_stable :
    (∀ (env : JNIEnvModel) (s : JniState) (fid : Nat) (s1 : JniState) (t : List Ev),
      GetFileDescriptorDescriptorField env s = Except.ok (fid, s1, t) →
      fid ≠ 0 ∧ GetFileDescriptorDescriptorField env s1 = Except.ok (fid, s1, [])) ∧
    (∀ (env : JNIEnvModel) (s : JniState) (mid : Nat) (s1 : JniState) (t : List Ev),
      GetReferenceGetMethod env s = Except.ok (mid, s1, t) →
      mid ≠ 0 ∧ GetReferenceGetMethod env s1 = Except.ok (mid, s1, [])) := by
  constructor
  · intro env s fid s1 t h
    obtain ⟨h1, h2⟩ := getFDfield_ok h
    refine ⟨h1, ?_⟩
    have hc := @getFDfield_cached env s1 (by rw [h2]; exact h1)
    rw [h2] at hc
    exact hc
  · intro env s mid s1 t h
    obtain ⟨h1, h2⟩ := getRefMethod_ok h
    refine ⟨h1, ?_⟩
    have hc := @getRefMethod_cached env s1 (by rw [h2]; exact h1)
    rw [h2] at hc
    exact hc

/-- The cache state after a first successful descriptor-field access from
`jniInit` under `envA`: three class handles 15, descriptor field id 7. -/
def c6State1 : JniState :=
  { g_file_descriptor_class := 15
    g_reference_class := 15
    g_string_class := 15
    g_file_descriptor_descriptor_field := 7
    g_file_descriptor_owner_id_field := 0
    g_file_descriptor_init_method := 0
    g_reference_get_method := 0
    g_class_refs_initialized := true }

theorem C6_witness :
    (7 : Nat) ≠ 0 ∧
    GetFileDescriptorDescriptorField envA c6State1 = Except.ok (7, c6State1, []) :=
  C6_repeated_accessor_calls_stable.1 envA jniInit 7 c6State1 _ rfl

/-- C7 counterexample: the claim states the operation "never returns a null
class handle".  With a runtime whose `env->FindClass` succeeds but whose
`NewGlobalRef` returns null (out of memory, which the JNI interface permits
and the source does not check), `FindClass` returns the null handle 0 with no
fatal abort: the run is `Except.ok`, not `Except.error`. -/
theorem C7_counterexample :
    FindClass envOOM "java/io/FileDescriptor" =
      Except.ok (0, [Ev.findClassCall "java/io/FileDescriptor",
        Ev.newGlobalRefCall 1, Ev.deleteLocalRefCall 1]) := rfl

/-- C7 amended: if the runtime cannot resolve a required class
(`env->FindClass` returns null), the operation aborts the process fatally
with a diagnostic naming the missing symbol and there is no recoverable
error path; on success it returns the `NewGlobalRef` of the found class,
which is non-null provided global-reference creation succeeded (the source
does not check the `NewGlobalRef` result, so a null handle can be returned
only on out-of-memory).  Field and method lookups abort fatally in the same
way, naming the missing member. -/
theorem C7_fatal_on_missing_class :
    (∀ (env : JNIEnvModel) (name : String), env.findClassLocal name = 0 →
      FindClass env name = Except.error ("failed to find class " ++ name)) ∧
    (∀ (env : JNIEnvModel) (name : String), env.findClassLocal name ≠ 0 →
      globalRefOf env name ≠ 0 →
      FindClass env name = Except.ok (globalRefOf env name,
        [Ev.findClassCall name, Ev.newGlobalRefCall (env.findClassLocal name),
         Ev.deleteLocalRefCall (env.findClassLocal name)]) ∧
      globalRefOf env name ≠ 0) ∧
    (∀ (env : JNIEnvModel) (klass : Nat) (name desc : String),
      env.getFieldID klass name desc = 0 →
      FindField env klass name desc =
        Except.error ("failed to find field " ++ name ++ ":" ++ desc)) ∧
    (∀ (env : JNIEnvModel) (klass : Nat) (name sig : String),
      env.getMethodID klass name sig = 0 →
      FindMethod env klass name sig =
        Except.error ("failed to find method " ++ name ++ sig)) := by
  refine ⟨?_, ?_, ?_, ?_⟩
  · intro env name h
    simp only [FindClass]
    rw [if_pos h]
  · intro env name h hg
    exact ⟨FindClass_eq_ok h, hg⟩
  · intro env klass name desc h
    simp only [FindField]
    rw [if_pos h]
  · intro env klass name sig h
    simp only [FindMethod]
    rw [if_pos h]

/-- A runtime model in which every lookup fails (returns null). -/
def envMissing : JNIEnvModel :=
  { findClassLocal := fun _ => 0
    newGlobalRef := fun r => r
    getFieldID := fun _ _ _ => 0
    getMethodID := fun _ _ _ => 0
    getIntField := fun _ _ => 0
    throwNewOk := fun _ _ => true
    oomClass := "java/lang/OutOfMemoryError" }

theorem C7_witness :
    FindClass envMissing "java/io/FileDescriptor" =
      Except.error ("failed to find class " ++ "java/io/FileDescriptor") ∧
    (FindClass envA "java/lang/String" = Except.ok (globalRefOf envA "java/lang/String",
        [Ev.findClassCall "java/lang/String",
         Ev.newGlobalRefCall (envA.findClassLocal "java/lang/String"),
         Ev.deleteLocalRefCall (envA.findClassLocal "java/lang/String")]) ∧
      globalRefOf envA "java/lang/String" ≠ 0) ∧
    FindField envMissing 1 "descriptor" "I" =
      Except.error ("failed to find field " ++ "descriptor" ++ ":" ++ "I") ∧
    FindMethod envMissing 1 "get" "()Ljava/lang/Object;" =
      Except.error ("failed to find method " ++ "get" ++ "()Ljava/lang/Object;") :=
  ⟨C7_fatal_on_missing_class.1 envMissing "java/io/FileDescriptor" rfl,
   C7_fatal_on_missing_class.2.1 envA "java/lang/String" (by decide) (by decide),
   C7_fatal_on_missing_class.2.2.1 envMissing 1 "descriptor" "I" rfl,
   C7_fatal_on_missing_class.2.2.2 envMissing 1 "get" "()Ljava/lang/Object;" rfl⟩

/-- C9: both file-descriptor getters — the legacy QR compat variant and the
main helper variant — return -1 for a null FileDescriptor argument without
any runtime call (empty trace, state untouched); for a non-null argument
they return the value of the object's int `descriptor` field, read with the
descriptor field id (the QR variant through its function-local static, the
main variant through the `JniConstants` cache). -/
theorem C9_getfd_null_and_nonnull :
    (∀ (env : JNIEnvModel) (q : QRState),
      jniGetFDFromFileDescriptor_QR env 0 q = (-1, q, [])) ∧
    (∀ (env : JNIEnvModel) (s : JniState),
      jniGetFDFromFileDescriptor env 0 s = Except.ok (-1, s, [])) ∧
    (∀ (env : JNIEnvModel) (obj : Nat) (q : QRState), obj ≠ 0 →
      q.g_descriptorFieldID ≠ 0 →
      jniGetFDFromFileDescriptor_QR env obj q =
        (env.getIntField obj q.g_descriptorFieldID, q,
         [Ev.getIntFieldCall obj q.g_descriptorFieldID])) ∧
    (∀ (env : JNIEnvModel) (obj : Nat) (q : QRState), obj ≠ 0 →
      q.g_descriptorFieldID = 0 →
      jniGetFDFromFileDescriptor_QR env obj q =
        (env.getIntField obj
           (env.getFieldID (env.findClassLocal "java/io/FileDescriptor") "descriptor" "I"),
         { g_descriptorFieldID :=
             env.getFieldID (env.findClassLocal "java/io/FileDescriptor") "descriptor" "I" },
         [Ev.findClassCall "java/io/FileDescriptor",
          Ev.getFieldIDCall (env.findClassLocal "java/io/FileDescriptor") "descriptor" "I",
          Ev.deleteLocalRefCall (env.findClassLocal "java/io/FileDescriptor"),
          Ev.getIntFieldCall obj
            (env.getFieldID (env.findClassLocal "java/io/FileDescriptor") "descriptor" "I")])) ∧
    (∀ (env : JNIEnvModel) (obj : Nat) (s : JniState) (fid : Nat) (s1 : JniState)
       (t : List Ev), obj ≠ 0 →
      GetFileDescriptorDescriptorField env s = Except.ok (fid, s1, t) →
      jniGetFDFromFileDescriptor env obj s =
        Except.ok (env.getIntField obj fid, s1, t ++ [Ev.getIntFieldCall obj fid])) := by
  refine ⟨?_, ?_, ?_, ?_, ?_⟩
  · intro env q
    rfl
  · intro env s
    rfl
  · intro env obj q h1 h2
    simp [jniGetFDFromFileDescriptor_QR, h1, h2]
  · intro env obj q h1 h2
    simp [jniGetFDFromFileDescriptor_QR, h1, h2]
  · intro env obj s fid s1 t h1 h2
    simp only [jniGetFDFromFileDescriptor]
    rw [if_pos h1]
    simp only [h2]

theorem C9_witness :
    jniGetFDFromFileDescriptor_QR envA 0 { g_descriptorFieldID := 7 } =
      (-1, { g_descriptorFieldID := 7 }, []) ∧
    jniGetFDFromFileDescriptor envA 0 jniInit = Except.ok (-1, jniInit, []) ∧
    jniGetFDFromFileDescriptor_QR envA 42 { g_descriptorFieldID := 7 } =
      (3, { g_descriptorFieldID := 7 }, [Ev.getIntFieldCall 42 7]) ∧
    jniGetFDFromFileDescriptor_QR envA 42 { g_descriptorFieldID := 0 } =
      (3, { g_descriptorFieldID := 7 },
       [Ev.findClassCall "java/io/FileDescriptor", Ev.getFieldIDCall 5 "descriptor" "I",
        Ev.deleteLocalRefCall 5, Ev.getIntFieldCall 42 7]) ∧
    jniGetFDFromFileDescriptor envA 42 c6State1 =
      Except.ok (3, c6State1, [Ev.getIntFieldCall 42 7]) :=
  ⟨C9_getfd_null_and_nonnull.1 envA { g_descriptorFieldID := 7 },
   C9_getfd_null_and_nonnull.2.1 envA jniInit,
   C9_getfd_null_and_nonnull.2.2.1 envA 42 { g_descriptorFieldID := 7 }
     (by decide) (by decide),
   C9_getfd_null_and_nonnull.2.2.2.1 envA 42 { g_descriptorFieldID := 0 }
     (by decide) rfl,
   C9_getfd_null_and_nonnull.2.2.2.2 envA 42 c6State1 7 c6State1 [] (by decide) rfl⟩

/-- C10: `jniSetFileDescriptorOfFD` with a null FileDescriptor argument makes
a java.lang.NullPointerException pending and performs no field write (the
trace holds no `SetIntField` call and the cache state is returned
untouched, so the descriptor state of every object is unchanged); with a
non-null argument it writes the int `descriptor` field of the argument with
the given value and leaves the pending-exception state exactly as it was. -/
theorem C10_setfd_null_throws :
    (∀ (env : JNIEnvModel) (p : Option String) (v : Int) (s : JniState),
      env.findClassLocal "java/lang/NullPointerException" ≠ 0 →
      env.throwNewOk "java/lang/NullPointerException" "null FileDescriptor" = true →
      jniSetFileDescriptorOfFD env p 0 v s =
        Except.ok (some "java/lang/NullPointerException", s,
          [Ev.findClassCall "java/lang/NullPointerException",
           Ev.throwNewCall "java/lang/NullPointerException" "null FileDescriptor",
           Ev.deleteLocalRefCall (env.findClassLocal "java/lang/NullPointerException")]) ∧
      (∀ (obj fid : Nat) (val : Int),
        Ev.setIntFieldCall obj fid val ∉
          ([Ev.findClassCall "java/lang/NullPointerException",
            Ev.throwNewCall "java/lang/NullPointerException" "null FileDescriptor",
            Ev.deleteLocalRefCall (env.findClassLocal "java/lang/NullPointerException")] :
            List Ev))) ∧
    (∀ (env : JNIEnvModel) (p : Option String) (obj : Nat) (v : Int) (s : JniState)
       (fid : Nat) (s1 : JniState) (t : List Ev), obj ≠ 0 →
      GetFileDescriptorDescriptorField env s = Except.ok (fid, s1, t) →
      jniSetFileDescriptorOfFD env p obj v s =
        Except.ok (p, s1, t ++ [Ev.setIntFieldCall obj fid v])) := by
  constructor
  · intro env p v s h1 h2
    constructor
    · simp [jniSetFileDescriptorOfFD, jniThrowNullPointerException, jniThrowException, h1, h2]
    · intro obj fid val
      simp
  · intro env p obj v s fid s1 t h1 h2
    simp only [jniSetFileDescriptorOfFD]
    rw [if_neg h1]
    simp only [h2]

theorem C10_witness :
    (jniSetFileDescriptorOfFD envA (some "java/io/IOException") 0 99 jniInit =
      Except.ok (some "java/lang/NullPointerException", jniInit,
        [Ev.findClassCall "java/lang/NullPointerException",
         Ev.throwNewCall "java/lang/NullPointerException" "null FileDescriptor",
         Ev.deleteLocalRefCall 5]) ∧
     (∀ (obj fid : Nat) (val : Int),
       Ev.setIntFieldCall obj fid val ∉
         ([Ev.findClassCall "java/lang/NullPointerException",
           Ev.throwNewCall "java/lang/NullPointerException" "null FileDescriptor",
           Ev.deleteLocalRefCall 5] : List Ev))) ∧
    jniSetFileDescriptorOfFD envA (some "java/io/IOException") 42 99 c6State1 =
      Except.ok (some "java/io/IOException", c6State1, [Ev.setIntFieldCall 42 7 99]) :=
  ⟨C10_setfd_null_throws.1 envA (some "java/io/IOException") 99 jniInit
     (by decide) (by decide),
   C10_setfd_null_throws.2 envA (some "java/io/IOException") 42 99 c6State1 7 c6State1 []
     (by decide) rfl⟩

/-- C5 counterexample: the claim says every accessor of the helper surface,
including the compat file-descriptor accessor, re-triggers full resolution
after a Reset and never reuses a pre-Reset cached handle.  The compat
accessor `jniGetFDFromFileDescriptor_QR` caches the field id in its own
function-local static, which is not among the `JniConstants.cpp` globals
that `Uninitialize` clears.  Concretely: a first call fills the static with
field id 7; `Uninitialize` resets the `JniConstants` cache to `jniInit`
(leaving the static untouched, as it has no access to it); the next call
performs no `FindClass` and no `GetFieldID` (its trace is only the
`GetIntField` read) and uses the field id 7 cached before the Reset. -/
theorem C5_counterexample :
    jniGetFDFromFileDescriptor_QR envA 42 { g_descriptorFieldID := 0 } =
      (3, { g_descriptorFieldID := 7 },
       [Ev.findClassCall "java/io/FileDescriptor", Ev.getFieldIDCall 5 "descriptor" "I",
        Ev.deleteLocalRefCall 5, Ev.getIntFieldCall 42 7]) ∧
    (Uninit c6State1).1 = jniInit ∧
    jniGetFDFromFileDescriptor_QR envA 42 { g_descriptorFieldID := 7 } =
      (3, { g_descriptorFieldID := 7 }, [Ev.getIntFieldCall 42 7]) ∧
    Ev.findClassCall "java/io/FileDescriptor" ∉ ([Ev.getIntFieldCall 42 7] : List Ev) ∧
    Ev.getFieldIDCall 5 "descriptor" "I" ∉ ([Ev.getIntFieldCall 42 7] : List Ev) := by
  refine ⟨rfl, rfl, rfl, ?_, ?_⟩
  · decide
  · decide

/-- The full trace of a first descriptor-field access from the reset state
under `envA`: guard taken, three classes resolved as global references,
guard released, then the field lookup outside the guard. -/
def c5Trace : List Ev :=
  [Ev.lockAcq,
   Ev.findClassCall "java/io/FileDescriptor", Ev.newGlobalRefCall 5, Ev.deleteLocalRefCall 5,
   Ev.findClassCall "java/lang/ref/Reference", Ev.newGlobalRefCall 5, Ev.deleteLocalRefCall 5,
   Ev.findClassCall "java/lang/String", Ev.newGlobalRefCall 5, Ev.deleteLocalRefCall 5,
   Ev.lockRel,
   Ev.getFieldIDCall 15 "descriptor" "I"]

/-- C5 amended: accessors that go through the `JniConstants` cache do
re-trigger full resolution after a Reset — `Uninitialize` returns the cache
to the process-start state, so the next accessor call behaves exactly as a
first-ever call and, when it succeeds, its trace contains the class
resolution (`FindClass`) and a fresh field lookup whose result, not any
pre-Reset value, is returned.  The legacy compat accessor
`jniGetFDFromFileDescriptor_QR` is the exception: it keeps a function-local
static cache that Reset does not clear (see the counterexample). -/
theorem C5_reset_forces_reresolution :
    (∀ s : JniState, (Uninit s).1 = jniInit) ∧
    (∀ (env : JNIEnvModel) (s : JniState),
      GetFileDescriptorDescriptorField env ((Uninit s).1) =
        GetFileDescriptorDescriptorField env jniInit) ∧
    (∀ (env : JNIEnvModel) (s : JniState) (fid : Nat) (s1 : JniState) (t : List Ev),
      GetFileDescriptorDescriptorField env ((Uninit s).1) = Except.ok (fid, s1, t) →
      Ev.findClassCall "java/io/FileDescriptor" ∈ t ∧
      Ev.getFieldIDCall s1.g_file_descriptor_class "descriptor" "I" ∈ t ∧
      fid = env.getFieldID s1.g_file_descriptor_class "descriptor" "I") := by
  refine ⟨fun s => rfl, fun env s => rfl, ?_⟩
  intro env s fid s1 t h
  obtain ⟨klass, s2, t1, hc, ht, hfid, hs1⟩ := getFDfield_uncached rfl h
  obtain ⟨he, hk⟩ := getFDclass_ok hc
  obtain ⟨_, _, _, _, ht1⟩ := ensure_flag_false rfl he
  have hkk : s1.g_file_descriptor_class = klass := by
    rw [hs1]
    exact hk.symm
  refine ⟨?_, ?_, ?_⟩
  · rw [ht, ht1]
    simp
  · rw [hkk, ht]
    simp
  · rw [hkk]
    exact hfid

theorem C5_witness :
    Ev.findClassCall "java/io/FileDescriptor" ∈ c5Trace ∧
    Ev.getFieldIDCall c6State1.g_file_descriptor_class "descriptor" "I" ∈ c5Trace ∧
    (7 : Nat) = envA.getFieldID c6State1.g_file_descriptor_class "descriptor" "I" :=
  C5_reset_forces_reresolution.2.2 envA c4SampleState 7 c6State1 c5Trace rfl

/-- C8: a field or method accessor whose slot still holds the unresolved
sentinel first calls the class accessor (which may initialize the class
tier) and then performs its own lookup; the guard is never held during that
lookup — the run's trace is the class-accessor trace followed by the single
lookup event, and the class-accessor trace is lock-balanced (net depth 0),
so the lookup executes at mutex depth 0 and a reentrant accessor call made
from inside the lookup can never attempt to acquire the guard recursively. -/
theorem C8_lookup_outside_guard :
    (∀ (env : JNIEnvModel) (s : JniState) (fid : Nat) (s1 : JniState) (t : List Ev),
      s.g_file_descriptor_descriptor_field = 0 →
      GetFileDescriptorDescriptorField env s = Except.ok (fid, s1, t) →
      ∃ klass s2 t1, GetFileDescriptorClass env s = Except.ok (klass, s2, t1) ∧
        t = t1 ++ [Ev.getFieldIDCall klass "descriptor" "I"] ∧
        lockDepth t1 = 0 ∧ lockDepth t = 0) ∧
    (∀ (env : JNIEnvModel) (s : JniState) (mid : Nat) (s1 : JniState) (t : List Ev),
      s.g_file_descriptor_init_method = 0 →
      GetFileDescriptorInitMethod env s = Except.ok (mid, s1, t) →
      ∃ klass s2 t1, GetFileDescriptorClass env s = Except.ok (klass, s2, t1) ∧
        t = t1 ++ [Ev.getMethodIDCall klass "<init>" "()V"] ∧
        lockDepth t1 = 0 ∧ lockDepth t = 0) := by
  constructor
  · intro env s fid s1 t h0 h
    obtain ⟨klass, s2, t1, hc, ht, hfid, hs1⟩ := getFDfield_uncached h0 h
    have hb : lockDepth t1 = 0 := ensure_trace_balanced (getFDclass_ok hc).1
    refine ⟨klass, s2, t1, hc, ht, hb, ?_⟩
    rw [ht, lockDepth_append, hb]
    rfl
  · intro env s mid s1 t h0 h
    obtain ⟨klass, s2, t1, hc, ht, hmid, hs1⟩ := getFDinit_uncached h0 h
    have hb : lockDepth t1 = 0 := ensure_trace_balanced (getFDclass_ok hc).1
    refine ⟨klass, s2, t1, hc, ht, hb, ?_⟩
    rw [ht, lockDepth_append, hb]
    rfl

theorem C8_witness :
    ∃ klass s2 t1, GetFileDescriptorClass envA jniInit = Except.ok (klass, s2, t1) ∧
      c5Trace = t1 ++ [Ev.getFieldIDCall klass "descriptor" "I"] ∧
      lockDepth t1 = 0 ∧ lockDepth c5Trace = 0 :=
  C8_lookup_outside_guard.1 envA jniInit 7 c6State1 c5Trace rfl rfl

/-- Reachable state exhibiting C1's failure under an out-of-memory
`NewGlobalRef`: one thread has completed the whole slow path, so the flag is
set, yet the three class handles are the null results of `NewGlobalRef`. -/
def c1Bad : CState :=
  { mem :=
      { g_file_descriptor_class := 0
        g_reference_class := 0
        g_string_class := 0
        g_file_descriptor_descriptor_field := 0
        g_file_descriptor_owner_id_field := 0
        g_file_descriptor_init_method := 0
        g_reference_get_method := 0
        g_class_refs_initialized := true }
    lockHolder := some 0
    pcs := [PC.unlock]
    fdFinds := 1
    refFinds := 1
    strFinds := 1 }

/-- C1 counterexample: the claim says that in every reachable state a true
flag implies all three class handles are non-null.  With a runtime whose
`NewGlobalRef` returns null (out of memory, permitted by JNI and unchecked
by the source), the state after one thread runs the full slow path is
reachable, has the flag true, and has all three class handles null. -/
theorem C1_counterexample :
    ReachSys envOOM 1 c1Bad ∧
    c1Bad.mem.g_class_refs_initialized = true ∧
    c1Bad.mem.g_file_descriptor_class = 0 ∧
    c1Bad.mem.g_reference_class = 0 ∧
    c1Bad.mem.g_string_class = 0 :=
  ⟨reachSys_of_reachE envOOM 1 c1Bad
     (reachE_of_runSteps envOOM 1 [0, 0, 0, 0, 0, 0, 0] c1Bad (by decide)),
   rfl, rfl, rfl, rfl⟩

/-- C1 amended: in every reachable state of the interleaved system (threads
running `EnsureClassReferencesInitialized`, `Uninitialize` actions allowed),
if the initialized flag is true then all three cached class handles are
non-null, provided durable-reference creation succeeds (returns non-null)
for the three well-known classes; the flag store happens only after all
three handles are written, and the reset clears the flag together with the
handles.  (Without the `NewGlobalRef`-success proviso the statement fails,
because the source never checks the `NewGlobalRef` result — see the
counterexample.) -/
theorem C1_flag_implies_classes_populated :
    ∀ (env : JNIEnvModel) (n : Nat) (σ : CState),
      globalRefOf env "java/io/FileDescriptor" ≠ 0 →
      globalRefOf env "java/lang/ref/Reference" ≠ 0 →
      globalRefOf env "java/lang/String" ≠ 0 →
      ReachSys env n σ →
      σ.mem.g_class_refs_initialized = true →
      ClassesNonNull σ.mem :=
  fun env n σ hFD hRef hStr h hf => (invC1_reach env hFD hRef hStr n σ h).2.2.2.2 hf

/-- Reachable state after one thread completes the slow path under the
well-behaved runtime `envA`: flag set, all handles 15. -/
def c1Good : CState :=
  { mem :=
      { g_file_descriptor_class := 15
        g_reference_class := 15
        g_string_class := 15
        g_file_descriptor_descriptor_field := 0
        g_file_descriptor_owner_id_field := 0
        g_file_descriptor_init_method := 0
        g_reference_get_method := 0
        g_class_refs_initialized := true }
    lockHolder := some 0
    pcs := [PC.unlock]
    fdFinds := 1
    refFinds := 1
    strFinds := 1 }

theorem C1_witness :
    c1Good.mem.g_class_refs_initialized = true ∧ ClassesNonNull c1Good.mem :=
  ⟨rfl,
   C1_flag_implies_classes_populated envA 1 c1Good (by decide) (by decide) (by decide)
     (reachSys_of_reachE envA 1 c1Good
       (reachE_of_runSteps envA 1 [0, 0, 0, 0, 0, 0, 0] c1Good (by decide))) rfl⟩

/-- C2: `EnsureClassReferencesInitialized` follows double-checked
initialization.  Sequentially, when the flag is already set the call returns
the state unchanged with an empty trace (no lock event).  In the interleaved
semantics, a thread at the fast check with the flag true goes directly to
done, changing neither the memory nor the mutex; with the flag false it
proceeds to the guard acquisition, which succeeds only when the mutex is
free (otherwise the thread is blocked); after acquiring it re-checks the
flag and, when the flag is meanwhile true, goes straight to the release with
no memory write; only when the flag is still false does it execute the three
durable (global) class resolutions, then set the flag, then release the
guard. -/
theorem C2_double_checked_locking :
    (∀ (env : JNIEnvModel) (s : JniState), s.g_class_refs_initialized = true →
      EnsureClassReferencesInitialized env s = Except.ok (s, [])) ∧
    (∀ (env : JNIEnvModel) (σ : CState) (t : Nat),
      (σ.pcs[t]? = some PC.fastCheck → σ.mem.g_class_refs_initialized = true →
        stepOf env σ t = some (setPc σ t PC.done) ∧
        (setPc σ t PC.done).mem = σ.mem ∧
        (setPc σ t PC.done).lockHolder = σ.lockHolder) ∧
      (σ.pcs[t]? = some PC.fastCheck → σ.mem.g_class_refs_initialized = false →
        stepOf env σ t = some (setPc σ t PC.lockWait)) ∧
      (σ.pcs[t]? = some PC.lockWait → σ.lockHolder = none →
        stepOf env σ t = some { setPc σ t PC.recheck with lockHolder := some t }) ∧
      (σ.pcs[t]? = some PC.lockWait → ∀ w : Nat, σ.lockHolder = some w →
        stepOf env σ t = none) ∧
      (σ.pcs[t]? = some PC.recheck → σ.mem.g_class_refs_initialized = true →
        stepOf env σ t = some (setPc σ t PC.unlock) ∧
        (setPc σ t PC.unlock).mem = σ.mem) ∧
      (σ.pcs[t]? = some PC.recheck → σ.mem.g_class_refs_initialized = false →
        stepOf env σ t = some (setPc σ t PC.resolveFD)) ∧
      (σ.pcs[t]? = some PC.resolveFD → env.findClassLocal "java/io/FileDescriptor" ≠ 0 →
        stepOf env σ t = some { setPc σ t PC.resolveRef with
          mem := { σ.mem with
            g_file_descriptor_class := globalRefOf env "java/io/FileDescriptor" }
          fdFinds := σ.fdFinds + 1 }) ∧
      (σ.pcs[t]? = some PC.resolveRef → env.findClassLocal "java/lang/ref/Reference" ≠ 0 →
        stepOf env σ t = some { setPc σ t PC.resolveStr with
          mem := { σ.mem with
            g_reference_class := globalRefOf env "java/lang/ref/Reference" }
          refFinds := σ.refFinds + 1 }) ∧
      (σ.pcs[t]? = some PC.resolveStr → env.findClassLocal "java/lang/String" ≠ 0 →
        stepOf env σ t = some { setPc σ t PC.setFlag with
          mem := { σ.mem with
            g_string_class := globalRefOf env "java/lang/String" }
          strFinds := σ.strFinds + 1 }) ∧
      (σ.pcs[t]? = some PC.setFlag →
        stepOf env σ t = some { setPc σ t PC.unlock with
          mem := { σ.mem with g_class_refs_initialized := true } }) ∧
      (σ.pcs[t]? = some PC.unlock →
        stepOf env σ t = some { setPc σ t PC.done with lockHolder := none })) := by
  constructor
  · intro env s h
    exact ensure_flag_true h
  · intro env σ t
    refine ⟨?_, ?_, ?_, ?_, ?_, ?_, ?_, ?_, ?_, ?_, ?_⟩
    · intro h hc
      exact ⟨by simp [stepOf, h, hc], rfl, rfl⟩
    · intro h hc
      simp [stepOf, h, hc]
    · intro h hc
      simp [stepOf, h, hc]
    · intro h w hc
      simp [stepOf, h, hc]
    · intro h hc
      exact ⟨by simp [stepOf, h, hc], rfl⟩
    · intro h hc
      simp [stepOf, h, hc]
    · intro h hc
      simp [stepOf, h, hc]
    · intro h hc
      simp [stepOf, h, hc]
    · intro h hc
      simp [stepOf, h, hc]
    · intro h
      simp [stepOf, h]
    · intro h
      simp [stepOf, h]

theorem C2_witness :
    EnsureClassReferencesInitialized envA c6State1 = Except.ok (c6State1, []) ∧
    stepOf envA (initCState 1) 0 = some (setPc (initCState 1) 0 PC.lockWait) ∧
    stepOf envA c1Good 0 = some { setPc c1Good 0 PC.done with lockHolder := none } :=
  ⟨C2_double_checked_locking.1 envA c6State1 rfl,
   (C2_double_checked_locking.2 envA (initCState 1) 0).2.1 (by decide) rfl,
   (C2_double_checked_locking.2 envA c1Good 0).2.2.2.2.2.2.2.2.2.2 (by decide)⟩

/-- C3: starting from the uninitialized state, under every interleaving of
first-use accessor calls by `n` threads, each class's `FindClass` /
`NewGlobalRef` batch line is executed at most once in any reachable state,
and exactly once whenever the flag is observed true; moreover with the flag
true the three cached handles equal the runtime-determined resolution
results, which do not change afterwards, so all `n` threads' accessor calls
return the same handle values. -/
theorem C3_exactly_once_batch_resolution :
    ∀ (env : JNIEnvModel) (n : Nat) (σ : CState), ReachE env n σ →
      (σ.fdFinds ≤ 1 ∧ σ.refFinds ≤ 1 ∧ σ.strFinds ≤ 1) ∧
      (σ.mem.g_class_refs_initialized = true →
        σ.fdFinds = 1 ∧ σ.refFinds = 1 ∧ σ.strFinds = 1 ∧
        σ.mem.g_file_descriptor_class = globalRefOf env "java/io/FileDescriptor" ∧
        σ.mem.g_reference_class = globalRefOf env "java/lang/ref/Reference" ∧
        σ.mem.g_string_class = globalRefOf env "java/lang/String") := by
  intro env n σ h
  obtain ⟨_, hphase⟩ := invC3_reach env n σ h
  rcases hphase with hA | hB | hC | hD | hE
  · obtain ⟨hfl, h1, h2, h3, _⟩ := hA
    refine ⟨⟨by omega, by omega, by omega⟩, fun hf => ?_⟩
    rw [hfl] at hf
    cases hf
  · obtain ⟨hfl, h1, h2, h3, _, _⟩ := hB
    refine ⟨⟨by omega, by omega, by omega⟩, fun hf => ?_⟩
    rw [hfl] at hf
    cases hf
  · obtain ⟨hfl, h1, h2, h3, _, _, _⟩ := hC
    refine ⟨⟨by omega, by omega, by omega⟩, fun hf => ?_⟩
    rw [hfl] at hf
    cases hf
  · obtain ⟨hfl, h1, h2, h3, _, _, _, _⟩ := hD
    refine ⟨⟨by omega, by omega, by omega⟩, fun hf => ?_⟩
    rw [hfl] at hf
    cases hf
  · obtain ⟨hfl, h1, h2, h3, h4, h5, h6, _⟩ := hE
    exact ⟨⟨by omega, by omega, by omega⟩, fun _ => ⟨h1, h2, h3, h4, h5, h6⟩⟩

theorem C3_witness :
    (c1Good.fdFinds ≤ 1 ∧ c1Good.refFinds ≤ 1 ∧ c1Good.strFinds ≤ 1) ∧
    (c1Good.fdFinds = 1 ∧ c1Good.refFinds = 1 ∧ c1Good.strFinds = 1 ∧
     c1Good.mem.g_file_descriptor_class = globalRefOf envA "java/io/FileDescriptor" ∧
     c1Good.mem.g_reference_class = globalRefOf envA "java/lang/ref/Reference" ∧
     c1Good.mem.g_string_class = globalRefOf envA "java/lang/String") :=
  have h := C3_exactly_once_batch_resolution envA 1 c1Good
    (reachE_of_runSteps envA 1 [0, 0, 0, 0, 0, 0, 0] c1Good (by decide))
  ⟨h.1, h.2 rfl⟩
